import Mathlib

/-!
Verification development for a tree-walking interpreter of a small
dynamically-typed scripting language (lexer, recursive-descent parser,
evaluator with a single flat environment, shared mutable lists, and
non-local return/break/continue signals).

Modelling conventions (shallow embedding of the C++ source):
* Source text is a `List Char`; characters are treated as ASCII bytes
  (the source treats strings as byte sequences).
* C++ `double` is modelled as `ℚ` with exact arithmetic.  `static_cast`
  to an integer type is modelled as exact truncation toward zero
  (`truncQ`); integer-overflow behaviour of the casts (undefined in the
  source) is out of scope.  `std::sqrt` and `rand` are modelled by
  constant stand-ins (no claim depends on them) and are marked below.
* Token line/column fields are omitted: no claim mentions positions.
* `std::unordered_map` is modelled as an association list with
  replace-or-append insertion; no observable behaviour depends on the
  iteration order of the map.
* Shared mutable lists (`shared_ptr<vector<Value>>`) are modelled by a
  heap: a list value stores an address into `St.heap`.
* C++ exceptions are modelled by the `Res` result type threaded through
  an explicit state, distinguishing `std::runtime_error` (`err`), other
  `std::exception`s (`errG`, e.g. `bad_variant_access`), the
  `ReturnValue` / `BreakSignal` / `ContinueSignal` sentinels, and fuel
  exhaustion of the embedding (`timeout`, an artifact: the source may
  diverge).
-/

/-! ## Characters and classification (C locale, ASCII) -/

def nlChar : Char := Char.ofNat 10
def tabChar : Char := Char.ofNat 9
def crChar : Char := Char.ofNat 13
def nulChar : Char := Char.ofNat 0
def quoteChar : Char := Char.ofNat 34
def backslashChar : Char := Char.ofNat 92
def underscoreChar : Char := Char.ofNat 95
def slashChar : Char := Char.ofNat 47
def spaceChar : Char := Char.ofNat 32

/-- C `isspace` on ASCII: space and the five control characters 9–13. -/
def isSpaceC (c : Char) : Bool :=
  decide (c.toNat = 32 ∨ (9 ≤ c.toNat ∧ c.toNat ≤ 13))

/-- C `isalpha` on ASCII. -/
def isAlphaC (c : Char) : Bool :=
  decide ((65 ≤ c.toNat ∧ c.toNat ≤ 90) ∨ (97 ≤ c.toNat ∧ c.toNat ≤ 122))

/-- C `isdigit` on ASCII. -/
def isDigitC (c : Char) : Bool :=
  decide (48 ≤ c.toNat ∧ c.toNat ≤ 57)

/-- C `isalnum` on ASCII. -/
def isAlnumC (c : Char) : Bool :=
  isAlphaC c || isDigitC c

/-- Continuation character of an identifier run: `isalnum(c) || c == '_'`. -/
def isIdentContC (c : Char) : Bool :=
  isAlnumC c || c == underscoreChar

/-! ## Tokens -/

inductive TokType where
  | keywordT | identT | numberT | stringT | operatorT
  | lparenT | rparenT | lbracketT | rbracketT | commaT | colonT
  | eolT | eofT | semiT
deriving DecidableEq, Repr

structure Tok where
  type : TokType
  value : String
deriving DecidableEq, Repr

def eofTok : Tok := ⟨TokType.eofT, ""⟩

def eolTok : Tok := ⟨TokType.eolT, "\n"⟩

/-- The reserved words of `Lexer::readIdentifierOrKeyword`. -/
def reservedWords : List String :=
  ["function", "if", "then", "else", "and", "not", "end", "for", "in",
   "return", "while", "break", "continue", "or", "nil", "true", "false"]

/-! ## Lexer (`Lexer::tokenize` and its helpers) -/

/-- `Lexer::readIdentifierOrKeyword`: take the maximal run of
`isalnum || '_'` characters (the first character is alphabetic, hence
part of the run) and classify the lexeme. -/
def readIdentTok (cs : List Char) : Tok × List Char :=
  let lex : String := String.mk (cs.takeWhile isIdentContC)
  let rest := cs.dropWhile isIdentContC
  if reservedWords.contains lex then (⟨TokType.keywordT, lex⟩, rest)
  else (⟨TokType.identT, lex⟩, rest)

/-- `Lexer::readNumber`: digits, optional `.` digits, optional
`e`/`E` with optional sign and digits. -/
def readNumberTok (cs : List Char) : Tok × List Char :=
  let d1 := cs.takeWhile isDigitC
  let r1 := cs.dropWhile isDigitC
  let (d2, r2) :=
    match r1 with
    | c :: rest =>
      if c = '.' then
        (c :: rest.takeWhile isDigitC, rest.dropWhile isDigitC)
      else ([], r1)
    | [] => ([], r1)
  let (d3, r3) :=
    match r2 with
    | c :: rest =>
      if c = 'e' ∨ c = 'E' then
        match rest with
        | s :: rest2 =>
          if s = '+' ∨ s = '-' then
            (c :: s :: rest2.takeWhile isDigitC, rest2.dropWhile isDigitC)
          else (c :: rest.takeWhile isDigitC, rest.dropWhile isDigitC)
        | [] => ([c], [])
      else ([], r2)
    | [] => ([], r2)
  (⟨TokType.numberT, String.mk (d1 ++ d2 ++ d3)⟩, r3)

/-- The escape map of `Lexer::readString`: `n`→LF, `t`→TAB, `"`→`"`,
`\`→`\`, any other escaped character copied verbatim. -/
def escMap (c : Char) : Char :=
  if c = 'n' then nlChar
  else if c = 't' then tabChar
  else if c = quoteChar then quoteChar
  else if c = backslashChar then backslashChar
  else c

/-- Body loop of `Lexer::readString` (after the opening quote was
consumed): returns the processed contents and the remaining input
(beginning with the closing quote, if one was found).  A backslash at
end of input escapes the `'\0'` sentinel, which is appended verbatim. -/
def readStringBody : List Char → List Char × List Char
  | [] => ([], [])
  | c :: rest =>
    if c = quoteChar then ([], c :: rest)
    else if c = backslashChar then
      match rest with
      | [] => ([nulChar], [])
      | d :: rest2 =>
        let (v, r) := readStringBody rest2
        (escMap d :: v, r)
    else
      let (v, r) := readStringBody rest
      (c :: v, r)

/-- `Lexer::readString` minus the opening-quote consumption (done by the
caller): run the body loop, then consume the closing quote if present. -/
def readStringTok (cs : List Char) : Tok × List Char :=
  let (v, r) := readStringBody cs
  let r2 := match r with
            | c :: rest => if c = quoteChar then rest else c :: rest
            | [] => []
  (⟨TokType.stringT, String.mk v⟩, r2)

/-- Two-character operator recognition of `Lexer::readSymbol`: `c`
followed by `=` when the next input character is `=`. -/
def opWithEq (c : Char) (rest : List Char) : Tok × List Char :=
  match rest with
  | d :: rest2 =>
    if d = '=' then (⟨TokType.operatorT, String.mk [c, '=']⟩, rest2)
    else (⟨TokType.operatorT, String.mk [c]⟩, rest)
  | [] => (⟨TokType.operatorT, String.mk [c]⟩, [])

/-- `Lexer::readSymbol`: `c` is the already-consumed character, `rest`
the remaining input. -/
def readSymbolTok (c : Char) (rest : List Char) :
    Except String (Tok × List Char) :=
  if c = '(' then .ok (⟨TokType.lparenT, "("⟩, rest)
  else if c = ')' then .ok (⟨TokType.rparenT, ")"⟩, rest)
  else if c = '[' then .ok (⟨TokType.lbracketT, "["⟩, rest)
  else if c = ']' then .ok (⟨TokType.rbracketT, "]"⟩, rest)
  else if c = ',' then
    -- after a comma, inline (non-newline) whitespace is consumed
    .ok (⟨TokType.commaT, ","⟩,
         rest.dropWhile (fun ch => isSpaceC ch && !(ch == nlChar)))
  else if c = ':' then .ok (⟨TokType.colonT, ":"⟩, rest)
  else if c = '=' ∨ c = '+' ∨ c = '-' ∨ c = '*' ∨ c = '/' ∨ c = '%' ∨
          c = '^' ∨ c = '<' ∨ c = '>' then .ok (opWithEq c rest)
  else if c = '!' then
    match rest with
    | d :: rest2 =>
      if d = '=' then .ok (⟨TokType.operatorT, "!="⟩, rest2)
      else .error "Expected '=' after '!'"
    | [] => .error "Expected '=' after '!'"
  else if c = ';' then .ok (⟨TokType.semiT, ";"⟩, rest)
  else .error ("Unexpected character: " ++ String.mk [c])

/-- Main loop of `Lexer::tokenize`.  Fuel strictly decreases on every
step; each step consumes at least one character, so
`length + 1` fuel (see `tokenize`) always suffices. -/
def tokenizeAux : Nat → List Char → Except String (List Tok)
  | 0, _ => .error "lexer fuel exhausted"
  | _ + 1, [] => .ok [eofTok]
  | fuel + 1, c :: cs =>
    if c = nlChar then
      match tokenizeAux fuel cs with
      | .ok ts => .ok (eolTok :: ts)
      | .error e => .error e
    else if isSpaceC c then tokenizeAux fuel cs
    else if c = slashChar ∧ cs.headD nulChar = slashChar then
      tokenizeAux fuel ((c :: cs).dropWhile (fun ch => !(ch == nlChar)))
    else if isAlphaC c then
      let (t, rest) := readIdentTok (c :: cs)
      match tokenizeAux fuel rest with
      | .ok ts => .ok (t :: ts)
      | .error e => .error e
    else if isDigitC c then
      let (t, rest) := readNumberTok (c :: cs)
      match tokenizeAux fuel rest with
      | .ok ts => .ok (t :: ts)
      | .error e => .error e
    else if c = quoteChar then
      let (t, rest) := readStringTok cs
      match tokenizeAux fuel rest with
      | .ok ts => .ok (t :: ts)
      | .error e => .error e
    else
      match readSymbolTok c cs with
      | .ok (t, rest) =>
        match tokenizeAux fuel rest with
        | .ok ts => .ok (t :: ts)
        | .error e => .error e
      | .error e => .error e

/-- `Lexer::tokenize`. -/
def tokenize (cs : List Char) : Except String (List Tok) :=
  tokenizeAux (cs.length + 1) cs

/-! ## Abstract syntax tree (`parser.h` node hierarchy) -/

mutual

inductive Expr where
  | numLit (v : ℚ)
  | strLit (s : String)
  | nilLit
  | listLit (elems : List Expr)
  | ident (name : String)
  | binOp (op : String) (l : Expr) (r : Expr)
  | unaryOp (op : String) (e : Expr)
  | call (callee : Expr) (args : List Expr)
  | index1 (target : Expr) (idx : Expr)
  | sliceE (target : Expr) (startE : Option Expr) (endE : Option Expr)
      (stepE : Option Expr)
  | funcDef (params : List String) (body : Blk)
  | assign (name : String) (op : String) (value : Expr)

inductive Stmt where
  | exprStmt (e : Expr)
  | retStmt (v : Option Expr)
  | brkStmt
  | cntStmt
  | ifStmt (cond : Expr) (thenB : Blk) (elifs : List (Expr × Blk))
      (elseB : Option Blk)
  | whileStmt (cond : Expr) (body : Blk)
  | forStmt (x : String) (iter : Expr) (body : Blk)

inductive Blk where
  | mk (stmts : List Stmt)

end

def Blk.stmts : Blk → List Stmt
  | .mk ss => ss

/-- `std::stod` restricted to the lexeme shape produced by
`Lexer::readNumber` (digits, optional fraction, optional exponent), with
exact rational semantics.  `stod` parses the longest valid prefix, so a
trailing exponent marker without digits is ignored. -/
def lexemeToQ (s : String) : ℚ :=
  let cs := s.toList
  let ip := cs.takeWhile isDigitC
  let r1 := cs.dropWhile isDigitC
  let (fp, r2) :=
    match r1 with
    | c :: rest =>
      if c = '.' then (rest.takeWhile isDigitC, rest.dropWhile isDigitC)
      else (([] : List Char), r1)
    | [] => ([], r1)
  let expPart : ℤ :=
    match r2 with
    | c :: rest =>
      if c = 'e' ∨ c = 'E' then
        match rest with
        | s2 :: rest2 =>
          if s2 = '-' then -((rest2.takeWhile isDigitC).foldl
              (fun a d => a * 10 + ((d.toNat : ℤ) - 48)) 0)
          else if s2 = '+' then (rest2.takeWhile isDigitC).foldl
              (fun a d => a * 10 + ((d.toNat : ℤ) - 48)) 0
          else (rest.takeWhile isDigitC).foldl
              (fun a d => a * 10 + ((d.toNat : ℤ) - 48)) 0
        | [] => 0
      else 0
    | [] => 0
  let ipN : ℚ := (ip.foldl (fun a d => a * 10 + (d.toNat - 48)) 0 : ℕ)
  let fpN : ℚ := (fp.foldl (fun a d => a * 10 + (d.toNat - 48)) 0 : ℕ)
  (ipN + fpN / (10 : ℚ) ^ fp.length) * (10 : ℚ) ^ expPart

/-! ## Parser (`Parser`, recursive descent with explicit fuel)

Parser state is the list of not-yet-consumed tokens; the lexer always
terminates the stream with an EndOfFile token, and `peekT` yields
EndOfFile when the list is exhausted (the source indexes into the token
vector, which always holds that terminator).  The source's
consume-then-back-up loops (`parseTerm`, `parseFactor`) are modelled by
peeking before consuming, which is observationally identical.  Dynamic
parts of some error messages (the offending lexeme) are kept where
cheap and dropped otherwise; no claim depends on parser message text. -/

def peekT (ts : List Tok) : Tok := ts.headD eofTok

def isAtEndT (ts : List Tok) : Bool := (peekT ts).type == TokType.eofT

/-- `Parser::advance`: moves only when not at EndOfFile. -/
def advT (ts : List Tok) : List Tok :=
  if isAtEndT ts then ts else ts.tail

/-- `Parser::check`: false at EndOfFile. -/
def checkT (ts : List Tok) (ty : TokType) : Bool :=
  if isAtEndT ts then false else (peekT ts).type == ty

/-- `Parser::match` as an optional consumption. -/
def matchT (ts : List Tok) (ty : TokType) : Option (Tok × List Tok) :=
  if checkT ts ty then some (peekT ts, advT ts) else none

/-- `Parser::consume`. -/
def consumeT (ts : List Tok) (ty : TokType) (msg : String) :
    Except String (Tok × List Tok) :=
  if checkT ts ty then .ok (peekT ts, advT ts) else .error msg

def skipEols (ts : List Tok) : List Tok :=
  ts.dropWhile (fun t => t.type == TokType.eolT)

def assignOps : List String := ["=", "+=", "-=", "*=", "/=", "%=", "^="]

def PRes (α : Type) : Type := Except String (α × List Tok)

mutual

def parseExpression (fuel : Nat) (ts : List Tok) : PRes Expr :=
  match fuel with
  | 0 => .error "parser fuel exhausted"
  | fuel + 1 => parseAssignment fuel ts

def parseAssignment (fuel : Nat) (ts : List Tok) : PRes Expr :=
  match fuel with
  | 0 => .error "parser fuel exhausted"
  | fuel + 1 =>
    match parseLogicalOr fuel ts with
    | .error e => .error e
    | .ok (expr, ts1) =>
      let t := peekT ts1
      if t.type = TokType.operatorT ∧ assignOps.contains t.value then
        match expr with
        | .ident n =>
          match parseAssignment fuel (advT ts1) with
          | .error e => .error e
          | .ok (v, ts2) => .ok (.assign n t.value v, ts2)
        | _ => .error "Invalid target for assignment. Expected an identifier."
      else .ok (expr, ts1)

def parseLogicalOr (fuel : Nat) (ts : List Tok) : PRes Expr :=
  match fuel with
  | 0 => .error "parser fuel exhausted"
  | fuel + 1 =>
    match parseLogicalAnd fuel ts with
    | .error e => .error e
    | .ok (expr, ts1) => parseLogicalOrLoop fuel expr ts1

def parseLogicalOrLoop (fuel : Nat) (acc : Expr) (ts : List Tok) :
    PRes Expr :=
  match fuel with
  | 0 => .error "parser fuel exhausted"
  | fuel + 1 =>
    if (peekT ts).type = TokType.keywordT ∧ (peekT ts).value = "or" then
      match parseLogicalAnd fuel (advT ts) with
      | .error e => .error e
      | .ok (r, ts1) => parseLogicalOrLoop fuel (.binOp "or" acc r) ts1
    else .ok (acc, ts)

def parseLogicalAnd (fuel : Nat) (ts : List Tok) : PRes Expr :=
  match fuel with
  | 0 => .error "parser fuel exhausted"
  | fuel + 1 =>
    match parseEquality fuel ts with
    | .error e => .error e
    | .ok (expr, ts1) => parseLogicalAndLoop fuel expr ts1

def parseLogicalAndLoop (fuel : Nat) (acc : Expr) (ts : List Tok) :
    PRes Expr :=
  match fuel with
  | 0 => .error "parser fuel exhausted"
  | fuel + 1 =>
    if (peekT ts).type = TokType.keywordT ∧ (peekT ts).value = "and" then
      match parseEquality fuel (advT ts) with
      | .error e => .error e
      | .ok (r, ts1) => parseLogicalAndLoop fuel (.binOp "and" acc r) ts1
    else .ok (acc, ts)

def parseEquality (fuel : Nat) (ts : List Tok) : PRes Expr :=
  match fuel with
  | 0 => .error "parser fuel exhausted"
  | fuel + 1 =>
    match parseComparison fuel ts with
    | .error e => .error e
    | .ok (expr, ts1) => parseEqualityLoop fuel expr ts1

def parseEqualityLoop (fuel : Nat) (acc : Expr) (ts : List Tok) :
    PRes Expr :=
  match fuel with
  | 0 => .error "parser fuel exhausted"
  | fuel + 1 =>
    if (peekT ts).type = TokType.operatorT ∧
        ((peekT ts).value = "==" ∨ (peekT ts).value = "!=") then
      match parseComparison fuel (advT ts) with
      | .error e => .error e
      | .ok (r, ts1) =>
        parseEqualityLoop fuel (.binOp (peekT ts).value acc r) ts1
    else .ok (acc, ts)

def parseComparison (fuel : Nat) (ts : List Tok) : PRes Expr :=
  match fuel with
  | 0 => .error "parser fuel exhausted"
  | fuel + 1 =>
    match parseTerm fuel ts with
    | .error e => .error e
    | .ok (expr, ts1) => parseComparisonLoop fuel expr ts1

def parseComparisonLoop (fuel : Nat) (acc : Expr) (ts : List Tok) :
    PRes Expr :=
  match fuel with
  | 0 => .error "parser fuel exhausted"
  | fuel + 1 =>
    if (peekT ts).type = TokType.operatorT ∧
        ((peekT ts).value = "<" ∨ (peekT ts).value = "<=" ∨
         (peekT ts).value = ">" ∨ (peekT ts).value = ">=") then
      match parseTerm fuel (advT ts) with
      | .error e => .error e
      | .ok (r, ts1) =>
        parseComparisonLoop fuel (.binOp (peekT ts).value acc r) ts1
    else .ok (acc, ts)

def parseTerm (fuel : Nat) (ts : List Tok) : PRes Expr :=
  match fuel with
  | 0 => .error "parser fuel exhausted"
  | fuel + 1 =>
    match parseFactor fuel ts with
    | .error e => .error e
    | .ok (expr, ts1) => parseTermLoop fuel expr ts1

def parseTermLoop (fuel : Nat) (acc : Expr) (ts : List Tok) : PRes Expr :=
  match fuel with
  | 0 => .error "parser fuel exhausted"
  | fuel + 1 =>
    if (peekT ts).type = TokType.operatorT ∧
        ((peekT ts).value = "+" ∨ (peekT ts).value = "-") then
      match parseFactor fuel (advT ts) with
      | .error e => .error e
      | .ok (r, ts1) =>
        parseTermLoop fuel (.binOp (peekT ts).value acc r) ts1
    else .ok (acc, ts)

def parseFactor (fuel : Nat) (ts : List Tok) : PRes Expr :=
  match fuel with
  | 0 => .error "parser fuel exhausted"
  | fuel + 1 =>
    match parseUnary fuel ts with
    | .error e => .error e
    | .ok (expr, ts1) => parseFactorLoop fuel expr ts1

def parseFactorLoop (fuel : Nat) (acc : Expr) (ts : List Tok) : PRes Expr :=
  match fuel with
  | 0 => .error "parser fuel exhausted"
  | fuel + 1 =>
    if (peekT ts).type = TokType.operatorT ∧
        ((peekT ts).value = "*" ∨ (peekT ts).value = "/" ∨
         (peekT ts).value = "%") then
      match parseUnary fuel (advT ts) with
      | .error e => .error e
      | .ok (r, ts1) =>
        parseFactorLoop fuel (.binOp (peekT ts).value acc r) ts1
    else .ok (acc, ts)

def parseUnary (fuel : Nat) (ts : List Tok) : PRes Expr :=
  match fuel with
  | 0 => .error "parser fuel exhausted"
  | fuel + 1 =>
    if (peekT ts).type = TokType.keywordT ∧ (peekT ts).value = "not" then
      match parseUnary fuel (advT ts) with
      | .error e => .error e
      | .ok (e, ts1) => .ok (.unaryOp "not" e, ts1)
    else if (peekT ts).type = TokType.operatorT ∧ (peekT ts).value = "-" then
      match parseUnary fuel (advT ts) with
      | .error e => .error e
      | .ok (e, ts1) => .ok (.unaryOp "-" e, ts1)
    else parsePrimary fuel ts

/-- The primary-expression dispatch switch of `Parser::parsePrimary`
(identifier, number, string, parenthesised expression, list literal,
keyword literal / function definition), before postfix handling. -/
def parsePrimaryBase (fuel : Nat) (ts : List Tok) : PRes Expr :=
  match fuel with
  | 0 => .error "parser fuel exhausted"
  | fuel + 1 =>
    if (peekT ts).type = TokType.identT then
      .ok (Expr.ident (peekT ts).value, advT ts)
    else if (peekT ts).type = TokType.numberT then
      .ok (Expr.numLit (lexemeToQ (peekT ts).value), advT ts)
    else if (peekT ts).type = TokType.stringT then
      .ok (Expr.strLit (peekT ts).value, advT ts)
    else if (peekT ts).type = TokType.lparenT then
      match parseExpression fuel (advT ts) with
      | .error e => .error e
      | .ok (e, ts1) =>
        match matchT ts1 TokType.rparenT with
        | some (_, ts2) => .ok (e, ts2)
        | none => .error "Expected ')' after expression in parentheses"
    else if (peekT ts).type = TokType.lbracketT then
      (if checkT (advT ts) TokType.rbracketT then
        .ok (Expr.listLit [], advT (advT ts))
      else
        match parseExprCommaList fuel (advT ts) with
        | .error e => .error e
        | .ok (elems, ts1) =>
          match matchT ts1 TokType.rbracketT with
          | some (_, ts2) => .ok (Expr.listLit elems, ts2)
          | none => .error "Expected ']' after list elements")
    else if (peekT ts).type = TokType.keywordT then
      (let kw := (peekT ts).value
      let ts0 := advT ts
      if kw = "true" then .ok (Expr.numLit 1, ts0)
      else if kw = "false" then .ok (Expr.numLit 0, ts0)
      else if kw = "nil" then .ok (Expr.nilLit, ts0)
      else if kw = "function" then
        match consumeT ts0 TokType.lparenT "Expected '(' after 'function'" with
        | .error e => .error e
        | .ok (_, ts1) =>
          match
            (if checkT ts1 TokType.rparenT then .ok (([] : List String), ts1)
             else parseParamList fuel ts1) with
          | .error e => .error e
          | .ok (params, ts2) =>
            match consumeT ts2 TokType.rparenT
                "Expect ')' after function parameters" with
            | .error e => .error e
            | .ok (_, ts3) =>
              match parseBlock fuel ts3 with
              | .error e => .error e
              | .ok (body, ts4) =>
                match consumeT ts4 TokType.keywordT
                    "Expected 'end' after function body" with
                | .error e => .error e
                | .ok (t1, ts5) =>
                  if t1.value ≠ "end" then
                    .error ("Expected keyword 'end' but got '" ++ t1.value ++
                      "' after function body")
                  else
                    match consumeT ts5 TokType.keywordT
                        "Expected 'function' after 'end' for function definition" with
                    | .error e => .error e
                    | .ok (t2, ts6) =>
                      if t2.value ≠ "function" then
                        .error ("Expected keyword 'function' after 'end' but got '"
                          ++ t2.value ++ "'")
                      else .ok (Expr.funcDef params body, ts6)
      else .error ("Unexpected keyword in primary expression: " ++ kw))
    else
      .error ("Unexpected token in primary expression: " ++ (peekT ts).value)

def parsePrimary (fuel : Nat) (ts : List Tok) : PRes Expr :=
  match fuel with
  | 0 => .error "parser fuel exhausted"
  | fuel + 1 =>
    if isAtEndT ts then
      .error
        "Parser error: Unexpected end of input while expecting a primary expression."
    else
      match parsePrimaryBase fuel ts with
      | .error e => .error e
      | .ok (e, ts1) => parsePostfixLoop fuel e ts1

/-- Comma-separated expression list (list literals and call arguments
share this shape in the source's do–while loops). -/
def parseExprCommaList (fuel : Nat) (ts : List Tok) : PRes (List Expr) :=
  match fuel with
  | 0 => .error "parser fuel exhausted"
  | fuel + 1 =>
    match parseExpression fuel ts with
    | .error e => .error e
    | .ok (e, ts1) =>
      match matchT ts1 TokType.commaT with
      | some (_, ts2) =>
        match parseExprCommaList fuel ts2 with
        | .error e => .error e
        | .ok (es, ts3) => .ok (e :: es, ts3)
      | none => .ok ([e], ts1)

def parseParamList (fuel : Nat) (ts : List Tok) : PRes (List String) :=
  match fuel with
  | 0 => .error "parser fuel exhausted"
  | fuel + 1 =>
    if checkT ts TokType.identT then
      let n := (peekT ts).value
      match matchT (advT ts) TokType.commaT with
      | some (_, ts2) =>
        match parseParamList fuel ts2 with
        | .error e => .error e
        | .ok (ns, ts3) => .ok (n :: ns, ts3)
      | none => .ok ([n], advT ts)
    else .error ("Expected parameter name, got: " ++ (peekT ts).value)

def parsePostfixLoop (fuel : Nat) (e : Expr) (ts : List Tok) : PRes Expr :=
  match fuel with
  | 0 => .error "parser fuel exhausted"
  | fuel + 1 =>
    if (peekT ts).type = TokType.lparenT then
      match
        (if checkT (advT ts) TokType.rparenT then .ok (([] : List Expr), advT ts)
         else parseExprCommaList fuel (advT ts)) with
      | .error e2 => .error e2
      | .ok (args, ts1) =>
        match matchT ts1 TokType.rparenT with
        | some (_, ts2) => parsePostfixLoop fuel (.call e args) ts2
        | none =>
          .error ("Expected ')' after function arguments for " ++
            (match e with | .ident n => n | _ => "expression"))
    else if (peekT ts).type = TokType.lbracketT then
      let ts1 := advT ts
      match
        (if checkT ts1 TokType.colonT then
          .ok ((none : Option Expr), false, ts1)
        else if ¬ checkT ts1 TokType.rbracketT then
          match parseExpression fuel ts1 with
          | .error e2 => .error e2
          | .ok (s, ts2) => .ok (some s, false, ts2)
        else .ok ((none : Option Expr), false, ts1)
        : Except String (Option Expr × Bool × List Tok)) with
      | .error e2 => .error e2
      | .ok (pStart, _, ts2) =>
        let isSliceInit := checkT ts1 TokType.colonT
        match matchT ts2 TokType.colonT with
        | some (_, ts3) =>
          -- a colon: definitely a slice; optional end, optional step
          match
            (if ¬ checkT ts3 TokType.rbracketT ∧ ¬ checkT ts3 TokType.colonT then
              match parseExpression fuel ts3 with
              | .error e2 => .error e2
              | .ok (en, ts4) => .ok (some en, ts4)
            else .ok ((none : Option Expr), ts3)
            : PRes (Option Expr)) with
          | .error e2 => .error e2
          | .ok (pEnd, ts4) =>
            match
              (match matchT ts4 TokType.colonT with
              | some (_, ts5) =>
                if ¬ checkT ts5 TokType.rbracketT then
                  match parseExpression fuel ts5 with
                  | .error e2 => .error e2
                  | .ok (st, ts6) => .ok (some st, ts6)
                else .ok ((none : Option Expr), ts5)
              | none => .ok ((none : Option Expr), ts4)
              : PRes (Option Expr)) with
            | .error e2 => .error e2
            | .ok (pStep, ts6) =>
              match consumeT ts6 TokType.rbracketT
                  "Expected ']' after index or slice expression" with
              | .error e2 => .error e2
              | .ok (_, ts7) =>
                parsePostfixLoop fuel (.sliceE e pStart pEnd pStep) ts7
        | none =>
          match consumeT ts2 TokType.rbracketT
              "Expected ']' after index or slice expression" with
          | .error e2 => .error e2
          | .ok (_, ts7) =>
            if isSliceInit then
              -- `[:`…`]` without a further colon cannot occur (the first
              -- colon is still pending), kept for structural faithfulness
              parsePostfixLoop fuel (.sliceE e pStart none none) ts7
            else
              match pStart with
              | some i => parsePostfixLoop fuel (.index1 e i) ts7
              | none => .error "Invalid empty index operation on an expression."
    else .ok (e, ts)

def parseStatement (fuel : Nat) (ts : List Tok) : PRes Stmt :=
  match fuel with
  | 0 => .error "parser fuel exhausted"
  | fuel + 1 =>
    if (peekT ts).type = TokType.keywordT ∧ (peekT ts).value = "if" then
      parseIfStatement fuel ts
    else if (peekT ts).type = TokType.keywordT ∧ (peekT ts).value = "while" then
      parseWhileStatement fuel ts
    else if (peekT ts).type = TokType.keywordT ∧ (peekT ts).value = "for" then
      parseForStatement fuel ts
    else if (peekT ts).type = TokType.keywordT ∧ (peekT ts).value = "return" then
      let ts1 := advT ts
      if (peekT ts1).type ≠ TokType.eolT ∧
          ¬((peekT ts1).type = TokType.keywordT ∧ (peekT ts1).value = "end") then
        match parseExpression fuel ts1 with
        | .error e => .error e
        | .ok (v, ts2) => .ok (.retStmt (some v), ts2)
      else .ok (.retStmt none, ts1)
    else if (peekT ts).type = TokType.keywordT ∧ (peekT ts).value = "break" then
      .ok (.brkStmt, advT ts)
    else if (peekT ts).type = TokType.keywordT ∧ (peekT ts).value = "continue" then
      .ok (.cntStmt, advT ts)
    else
      match parseExpression fuel ts with
      | .error e => .error e
      | .ok (e, ts1) =>
        match matchT ts1 TokType.semiT with
        | some (_, ts2) => .ok (.exprStmt e, ts2)
        | none => .ok (.exprStmt e, ts1)

def parseIfStatement (fuel : Nat) (ts : List Tok) : PRes Stmt :=
  match fuel with
  | 0 => .error "parser fuel exhausted"
  | fuel + 1 =>
    match parseExpression fuel (advT ts) with
    | .error e => .error e
    | .ok (cond, ts1) =>
      match matchT ts1 TokType.keywordT with
      | none => .error "Expected 'then' after if condition"
      | some (t, ts2) =>
        if t.value ≠ "then" then .error "Expected 'then' after if condition"
        else
          match parseBlock fuel ts2 with
          | .error e => .error e
          | .ok (thenB, ts3) =>
            match parseElseChain fuel ts3 with
            | .error e => .error e
            | .ok ((elifs, elseB), ts4) =>
              match matchT ts4 TokType.keywordT with
              | none => .error "Expected 'end' after if/else if/else blocks."
              | some (t1, ts5) =>
                if t1.value ≠ "end" then
                  .error "Expected 'end' after if/else if/else blocks."
                else
                  match matchT ts5 TokType.keywordT with
                  | none => .error "Expected 'if' after 'end' for IfStatement."
                  | some (t2, ts6) =>
                    if t2.value ≠ "if" then
                      .error "Expected 'if' after 'end' for IfStatement."
                    else .ok (.ifStmt cond thenB elifs elseB, ts6)

/-- The `else` / `else if` collection loop of `Parser::parseIfStatement`. -/
def parseElseChain (fuel : Nat) (ts : List Tok) :
    PRes (List (Expr × Blk) × Option Blk) :=
  match fuel with
  | 0 => .error "parser fuel exhausted"
  | fuel + 1 =>
    if checkT ts TokType.keywordT ∧ (peekT ts).value = "else" then
      let ts1 := advT ts
      if checkT ts1 TokType.keywordT ∧ (peekT ts1).value = "if" then
        match parseExpression fuel (advT ts1) with
        | .error e => .error e
        | .ok (c, ts2) =>
          match matchT ts2 TokType.keywordT with
          | none => .error "Expected 'then' after else if condition"
          | some (t, ts3) =>
            if t.value ≠ "then" then
              .error "Expected 'then' after else if condition"
            else
              match parseBlock fuel ts3 with
              | .error e => .error e
              | .ok (b, ts4) =>
                match parseElseChain fuel ts4 with
                | .error e => .error e
                | .ok ((elifs, elseB), ts5) =>
                  .ok (((c, b) :: elifs, elseB), ts5)
      else
        match parseBlock fuel ts1 with
        | .error e => .error e
        | .ok (b, ts2) => .ok (([], some b), ts2)
    else .ok (([], none), ts)

def parseWhileStatement (fuel : Nat) (ts : List Tok) : PRes Stmt :=
  match fuel with
  | 0 => .error "parser fuel exhausted"
  | fuel + 1 =>
    match parseExpression fuel (advT ts) with
    | .error e => .error e
    | .ok (cond, ts1) =>
      match parseBlock fuel ts1 with
      | .error e => .error e
      | .ok (body, ts2) =>
        match matchT ts2 TokType.keywordT with
        | none => .error "Expected 'end' after while body."
        | some (t1, ts3) =>
          if t1.value ≠ "end" then .error "Expected 'end' after while body."
          else
            match matchT ts3 TokType.keywordT with
            | none => .error "Expected 'while' after 'end' for while statement."
            | some (t2, ts4) =>
              if t2.value ≠ "while" then
                .error "Expected 'while' after 'end' for while statement."
              else .ok (.whileStmt cond body, ts4)

def parseForStatement (fuel : Nat) (ts : List Tok) : PRes Stmt :=
  match fuel with
  | 0 => .error "parser fuel exhausted"
  | fuel + 1 =>
    match consumeT (advT ts) TokType.identT "Expected identifier after 'for'." with
    | .error e => .error e
    | .ok (v, ts1) =>
      match matchT ts1 TokType.keywordT with
      | none => .error "Expected 'in' after for variable."
      | some (t, ts2) =>
        if t.value ≠ "in" then .error "Expected 'in' after for variable."
        else
          match parseExpression fuel ts2 with
          | .error e => .error e
          | .ok (iter, ts3) =>
            match parseBlock fuel ts3 with
            | .error e => .error e
            | .ok (body, ts4) =>
              match matchT ts4 TokType.keywordT with
              | none => .error "Expected 'end' after for body."
              | some (t1, ts5) =>
                if t1.value ≠ "end" then .error "Expected 'end' after for body."
                else
                  match matchT ts5 TokType.keywordT with
                  | none => .error "Expected 'for' after 'end' for for statement."
                  | some (t2, ts6) =>
                    if t2.value ≠ "for" then
                      .error "Expected 'for' after 'end' for for statement."
                    else .ok (.forStmt v.value iter body, ts6)

def parseBlock (fuel : Nat) (ts : List Tok) : PRes Blk :=
  match fuel with
  | 0 => .error "parser fuel exhausted"
  | fuel + 1 =>
    match parseBlockStmts fuel (skipEols ts) with
    | .error e => .error e
    | .ok (ss, ts1) => .ok (.mk ss, ts1)

def parseBlockStmts (fuel : Nat) (ts : List Tok) : PRes (List Stmt) :=
  match fuel with
  | 0 => .error "parser fuel exhausted"
  | fuel + 1 =>
    if ¬ isAtEndT ts ∧
        ¬((peekT ts).type = TokType.keywordT ∧
          ((peekT ts).value = "end" ∨ (peekT ts).value = "else" ∨
           (peekT ts).value = "else if")) then
      match parseStatement fuel ts with
      | .error e => .error e
      | .ok (s, ts1) =>
        match parseBlockStmts fuel (skipEols ts1) with
        | .error e => .error e
        | .ok (ss, ts2) => .ok (s :: ss, ts2)
    else .ok ([], ts)

/-- `Parser::parse`: the top-level statement loop. -/
def parseTopStmts (fuel : Nat) (ts : List Tok) : PRes (List Stmt) :=
  match fuel with
  | 0 => .error "parser fuel exhausted"
  | fuel + 1 =>
    if isAtEndT ts then .ok ([], ts)
    else
      let ts1 := skipEols ts
      if isAtEndT ts1 then .ok ([], ts1)
      else
        match parseStatement fuel ts1 with
        | .error e => .error e
        | .ok (s, ts2) =>
          match parseTopStmts fuel ts2 with
          | .error e => .error e
          | .ok (ss, ts3) => .ok (s :: ss, ts3)

end

/-- `Parser::parse` packaged as a root `Blk` over a whole token list. -/
def parseTop (fuel : Nat) (ts : List Tok) : Except String Blk :=
  match parseTopStmts fuel ts with
  | .error e => .error e
  | .ok (ss, _) => .ok (.mk ss)

/-! ## Runtime values, heap and state (`Interpreter::Value`, `globals`)

A list value holds an address into the heap `St.heap`, modelling
`shared_ptr<vector<Value>>` aliasing: copying a `Value` copies the
address, mutation acts on the heap cell.  Function values hold the
parameter list and body; the source's defensive deep-clone of the body
at definition time is semantically the identity (bodies are immutable),
so it is modelled as sharing. -/

inductive Value where
  | num (q : ℚ)
  | str (s : String)
  | list (addr : Nat)
  | fn (params : List String) (body : Blk)
  | nil

def Value.isNumber : Value → Bool
  | .num _ => true
  | _ => false

def Value.isString : Value → Bool
  | .str _ => true
  | _ => false

def Value.isList : Value → Bool
  | .list _ => true
  | _ => false

def Value.isFunction : Value → Bool
  | .fn _ _ => true
  | _ => false

def Value.isNil : Value → Bool
  | .nil => true
  | _ => false

def Value.typeName : Value → String
  | .num _ => "Number"
  | .str _ => "String"
  | .list _ => "List"
  | .fn _ _ => "Function"
  | .nil => "Nil"

/-- Projections used only after the corresponding type check, mirroring
`std::get` on the checked alternative. -/
def Value.getNum : Value → ℚ
  | .num q => q
  | _ => 0

def Value.getStr : Value → String
  | .str s => s
  | _ => ""

def Value.getAddr : Value → Nat
  | .list a => a
  | _ => 0

structure St where
  globals : List (String × Value)
  heap : List (List Value)
  out : String

/-- `unordered_map::find`. -/
def envFind : List (String × Value) → String → Option Value
  | [], _ => none
  | (k, v) :: rest, n => if k = n then some v else envFind rest n

/-- `unordered_map::operator[] =`: replace or append. -/
def envSet : List (String × Value) → String → Value → List (String × Value)
  | [], n, v => [(n, v)]
  | (k, w) :: rest, n, v =>
    if k = n then (k, v) :: rest else (k, w) :: envSet rest n v

def heapGet (h : List (List Value)) (a : Nat) : Option (List Value) := h[a]?

def heapSet (h : List (List Value)) (a : Nat) (l : List Value) :
    List (List Value) := h.set a l

def heapAlloc (h : List (List Value)) (l : List Value) :
    Nat × List (List Value) := (h.length, h ++ [l])

/-- Contents of the list cell a list value points at (dereference of the
`shared_ptr`; addresses are always valid in reachable states). -/
def listOf (st : St) (a : Nat) : List Value := (heapGet st.heap a).getD []

/-- The interpreter constructor presets `globals["len"] = nil`. -/
def initSt : St := ⟨[("len", Value.nil)], [], ""⟩

/-- `Value::asBool` (lists dereference the heap). -/
def asBoolSt (st : St) : Value → Bool
  | .num q => q ≠ 0
  | .str s => s ≠ ""
  | .list a => !(listOf st a).isEmpty
  | .fn _ _ => true
  | .nil => false

/-! ## Numeric primitives (`double` operations on the ℚ model) -/

/-- `static_cast<long long>` / `static_cast<int>`: truncation toward
zero (exact; out-of-range casts are UB in the source and out of scope). -/
def truncQ (q : ℚ) : ℤ :=
  if 0 ≤ q.num then ((q.num.toNat / q.den : ℕ) : ℤ)
  else -(((-q.num).toNat / q.den : ℕ) : ℤ)

def floorQ (q : ℚ) : ℤ :=
  if 0 ≤ q.num then ((q.num.toNat / q.den : ℕ) : ℤ)
  else -(((((-q.num).toNat + q.den - 1) / q.den : ℕ)) : ℤ)

def ceilQ (q : ℚ) : ℤ := -(floorQ (-q))

/-- `std::round`: half away from zero. -/
def roundQ (q : ℚ) : ℤ :=
  if q < 0 then -(floorQ (-q + 1/2)) else floorQ (q + 1/2)

/-- `std::fmod` (both operand sites guard the divisor against zero). -/
def qfmod (x y : ℚ) : ℚ := x - (truncQ (x / y) : ℚ) * y

/-- `std::pow` on the ℚ model: exact for integral exponents.  A
non-integral exponent generally has no rational power; it is mapped to 0
here.  Both the binary `^` evaluation and the `^=` compound assignment
call this single model, and no claim depends on the non-integral case. -/
def qpow (a b : ℚ) : ℚ := if b.den = 1 then a ^ b.num else 0

/-- Stand-in for `std::sqrt` (no claim involves `sqrt` results; the
negativity guard is modelled faithfully at the call site). -/
def qsqrtModel (_ : ℚ) : ℚ := 0

/-! ## Value formatting (`Value::toString`, `print`) -/

/-- Integer-or-precision-15 formatting of a number.  The integral case
(`den = 1`, i.e. the double equals its truncation) is exact; the
non-integral case is rendered as an exact fraction, an approximation of
the source's decimal output that no claim depends on. -/
def fmtNum (q : ℚ) : String :=
  if q.den = 1 then toString q.num
  else "~" ++ toString q.num ++ "/" ++ toString q.den

/-- The escape loop of `Value::toString` for strings inside containers. -/
def escapeStr (s : String) : String :=
  String.mk (s.toList.foldr
    (fun c acc =>
      (if c = backslashChar then [backslashChar, backslashChar]
       else if c = quoteChar then [backslashChar, quoteChar]
       else if c = nlChar then [backslashChar, 'n']
       else if c = crChar then [backslashChar, 'r']
       else if c = tabChar then [backslashChar, 't']
       else [c]) ++ acc) [])

/-- `Value::toString`.  Fuel bounds the recursion through list cells; a
cyclic list overflows the host stack in the source (out of scope) and
yields a truncated rendering here. -/
def valToString (fuel : Nat) (st : St) (v : Value) : String :=
  match fuel with
  | 0 => ""
  | fuel + 1 =>
    match v with
    | .num q => fmtNum q
    | .str s => String.mk [quoteChar] ++ escapeStr s ++ String.mk [quoteChar]
    | .list a =>
      "[" ++ String.intercalate ", " ((listOf st a).map (valToString fuel st))
        ++ "]"
    | .fn _ _ => "[function]"
    | .nil => "nil"

/-- Formatting used by `print`/`println` for a single argument. -/
def printFmt (fuel : Nat) (st : St) (v : Value) : String :=
  match v with
  | .num q => fmtNum q
  | .str s => s
  | .nil => "nil"
  | _ => valToString fuel st v

/-! ## Results (exceptions of the evaluator) -/

inductive Res where
  | val (v : Value)
  | err (msg : String)
  | errG (msg : String)
  | ret (v : Value)
  | brk
  | cnt
  | timeout

/-- Result of evaluating an argument list. -/
inductive ResVs where
  | vals (vs : List Value)
  | fail (r : Res)

/-! ## Shared small string/list helpers used by several operations -/

/-- Suffix-strip of `string - string` (used verbatim at both the binary
and the compound-assignment site). -/
def stripSuffixStr (main sfx : String) : String :=
  let m := main.toList
  let s := sfx.toList
  if s.length ≤ m.length ∧ m.drop (m.length - s.length) = s then
    String.mk (m.take (m.length - s.length))
  else main

def repeatStr (s : String) (n : Nat) : String :=
  String.join (List.replicate n s)

def repeatList (l : List Value) (n : Nat) : List Value :=
  (List.replicate n l).flatten

/-! ## Binary operator dispatch (`Interpreter::evaluate`, BinaryOp case)

This is the transcription of the evaluator's own binary-operator block;
the compound-assignment block below is a separate, duplicated dispatch
in the source and is transcribed separately. -/

def evalBinaryOp (op : String) (l r : Value) (st : St) : Res × St :=
  if op = "+" then
    if l.isNil || r.isNil then
      (.err "Operator '+' cannot be applied if an operand is Nil", st)
    else if l.isNumber && r.isNumber then
      (.val (.num (l.getNum + r.getNum)), st)
    else if l.isString && r.isString then
      (.val (.str (l.getStr ++ r.getStr)), st)
    else if l.isList && r.isList then
      let (a, h) := heapAlloc st.heap (listOf st l.getAddr ++ listOf st r.getAddr)
      (.val (.list a), { st with heap := h })
    else
      (.err ("Operator '+' cannot be applied to types " ++ l.typeName ++
        " and " ++ r.typeName), st)
  else if op = "-" then
    if l.isNil || r.isNil then
      (.err "Operator '-' cannot be applied if an operand is Nil", st)
    else if l.isNumber && r.isNumber then
      (.val (.num (l.getNum - r.getNum)), st)
    else if l.isString && r.isString then
      (.val (.str (stripSuffixStr l.getStr r.getStr)), st)
    else
      (.err ("Operator '-' cannot be applied to types " ++ l.typeName ++
        " and " ++ r.typeName), st)
  else if op = "/" ∨ op = "%" ∨ op = "^" then
    if l.isNil || r.isNil then
      (.err ("Operator '" ++ op ++ "' cannot be applied if an operand is Nil"),
        st)
    else if l.isNumber && r.isNumber then
      if (op = "/" ∨ op = "%") ∧ r.getNum = 0 then
        (.err (if op = "/" then "Division by zero" else "Modulo by zero"), st)
      else if op = "/" then (.val (.num (l.getNum / r.getNum)), st)
      else if op = "%" then (.val (.num (qfmod l.getNum r.getNum)), st)
      else (.val (.num (qpow l.getNum r.getNum)), st)
    else
      (.err ("Operator '" ++ op ++ "' cannot be applied to types " ++
        l.typeName ++ " and " ++ r.typeName), st)
  else if op = "*" then
    if l.isNumber && r.isNumber then
      (.val (.num (l.getNum * r.getNum)), st)
    else if (l.isString && r.isNumber) || (l.isNumber && r.isString) then
      let s := if l.isString then l.getStr else r.getStr
      let n := if l.isString then r.getNum else l.getNum
      if n < 0 then (.err "Cannot multiply string by negative number", st)
      else (.val (.str (repeatStr s (truncQ n).toNat)), st)
    else if (l.isList && r.isNumber) || (l.isNumber && r.isList) then
      let lv := if l.isList then listOf st l.getAddr else listOf st r.getAddr
      let n := if l.isList then r.getNum else l.getNum
      if n < 0 then (.err "Cannot multiply list by negative number", st)
      else
        let (a, h) := heapAlloc st.heap (repeatList lv (truncQ n).toNat)
        (.val (.list a), { st with heap := h })
    else
      (.err ("Operator '*' cannot be applied to types " ++ l.typeName ++
        " and " ++ r.typeName), st)
  else if op = "==" ∨ op = "!=" then
    if l.isNil && r.isNil then
      (.val (.num (if op = "==" then 1 else 0)), st)
    else if l.isNil || r.isNil then
      (.val (.num (if op = "!=" then 1 else 0)), st)
    else if l.isNumber && r.isNumber then
      if op = "==" then (.val (.num (if l.getNum = r.getNum then 1 else 0)), st)
      else (.val (.num (if l.getNum ≠ r.getNum then 1 else 0)), st)
    else if l.isString && r.isString then
      if op = "==" then (.val (.num (if l.getStr = r.getStr then 1 else 0)), st)
      else (.val (.num (if l.getStr ≠ r.getStr then 1 else 0)), st)
    else
      (.err ("Operator '" ++ op ++ "' cannot compare types " ++ l.typeName ++
        " and " ++ r.typeName), st)
  else if op = "<" ∨ op = ">" ∨ op = "<=" ∨ op = ">=" then
    if l.isNil || r.isNil then
      (.err ("Operator '" ++ op ++ "' cannot be applied if an operand is Nil"),
        st)
    else if l.isNumber && r.isNumber then
      let a := l.getNum
      let b := r.getNum
      if op = "<" then (.val (.num (if a < b then 1 else 0)), st)
      else if op = ">" then (.val (.num (if b < a then 1 else 0)), st)
      else if op = "<=" then (.val (.num (if a ≤ b then 1 else 0)), st)
      else (.val (.num (if b ≤ a then 1 else 0)), st)
    else if l.isString && r.isString then
      let a := l.getStr
      let b := r.getStr
      if op = "<" then (.val (.num (if a < b then 1 else 0)), st)
      else if op = ">" then (.val (.num (if b < a then 1 else 0)), st)
      else if op = "<=" then (.val (.num (if a ≤ b then 1 else 0)), st)
      else (.val (.num (if b ≤ a then 1 else 0)), st)
    else
      (.err ("Operator '" ++ op ++ "' cannot be applied to types " ++
        l.typeName ++ " and " ++ r.typeName), st)
  else if op = "and" then
    (.val (.num (if asBoolSt st l && asBoolSt st r then 1 else 0)), st)
  else if op = "or" then
    (.val (.num (if asBoolSt st l || asBoolSt st r then 1 else 0)), st)
  else
    (.err ("Unknown operator '" ++ op ++ "' for types " ++ l.typeName ++
      " and " ++ r.typeName), st)

/-! ## Compound-assignment dispatch (`Interpreter::evaluate`, Assignment
case, non-`=` branch).  `bop` is the binary part of the operator
(`assign->op` minus its trailing `=`); `cur` is the variable's current
value, `rhs` the evaluated right-hand side. -/

def evalCompound (bop : String) (cur rhs : Value) (st : St) : Res × St :=
  if bop = "+" then
    if cur.isNumber && rhs.isNumber then
      (.val (.num (cur.getNum + rhs.getNum)), st)
    else if cur.isString && rhs.isString then
      (.val (.str (cur.getStr ++ rhs.getStr)), st)
    else if cur.isList && rhs.isList then
      let (a, h) := heapAlloc st.heap
        (listOf st cur.getAddr ++ listOf st rhs.getAddr)
      (.val (.list a), { st with heap := h })
    else
      (.err ("Operator '" ++ bop ++ "=' cannot be applied to types " ++
        cur.typeName ++ " and " ++ rhs.typeName), st)
  else if bop = "-" then
    if cur.isNumber && rhs.isNumber then
      (.val (.num (cur.getNum - rhs.getNum)), st)
    else if cur.isString && rhs.isString then
      (.val (.str (stripSuffixStr cur.getStr rhs.getStr)), st)
    else
      (.err ("Operator '-' cannot be applied to types " ++ cur.typeName ++
        " and " ++ rhs.typeName), st)
  else if bop = "*" then
    if cur.isNumber && rhs.isNumber then
      (.val (.num (cur.getNum * rhs.getNum)), st)
    else if (cur.isString && rhs.isNumber) || (cur.isNumber && rhs.isString) then
      -- the source re-examines the operand kinds and rejects
      -- number *= string explicitly
      if cur.isString && rhs.isNumber then
        if rhs.getNum < 0 then
          (.err "Cannot multiply string by negative number for '*='", st)
        else (.val (.str (repeatStr cur.getStr (truncQ rhs.getNum).toNat)), st)
      else
        (.err
          "Operator '*=' with number on left and string on right is not supported.",
          st)
    else if cur.isList && rhs.isNumber then
      if rhs.getNum < 0 then
        (.err "Cannot multiply list by negative number for '*='", st)
      else
        let (a, h) := heapAlloc st.heap
          (repeatList (listOf st cur.getAddr) (truncQ rhs.getNum).toNat)
        (.val (.list a), { st with heap := h })
    else
      (.err ("Operator '" ++ bop ++ "=' cannot be applied to types " ++
        cur.typeName ++ " and " ++ rhs.typeName), st)
  else if bop = "/" then
    if cur.isNumber && rhs.isNumber then
      if rhs.getNum = 0 then (.err "Division by zero for '/='", st)
      else (.val (.num (cur.getNum / rhs.getNum)), st)
    else (.err ("Operator '" ++ bop ++ "=' requires numeric operands"), st)
  else if bop = "%" then
    if cur.isNumber && rhs.isNumber then
      if rhs.getNum = 0 then (.err "Modulo by zero for '%='", st)
      else (.val (.num (qfmod cur.getNum rhs.getNum)), st)
    else (.err ("Operator '" ++ bop ++ "=' requires numeric operands"), st)
  else if bop = "^" then
    if cur.isNumber && rhs.isNumber then
      (.val (.num (qpow cur.getNum rhs.getNum)), st)
    else (.err ("Operator '" ++ bop ++ "=' requires numeric operands"), st)
  else
    (.err ("Unsupported compound assignment operator: " ++ bop ++ "="), st)

/-! ## Pure helpers for built-ins -/

/-- Index list of `for (i = start; i < e; i += step)` with positive
step; fuel is instantiated with a sufficient bound at the call site
(step ≥ 1, so `e - start` iterations suffice). -/
def upIdx (fuel : Nat) (i e step : ℤ) : List ℤ :=
  match fuel with
  | 0 => []
  | f + 1 => if i < e then i :: upIdx f (i + step) e step else []

/-- Index list of `for (i = start; i > e; i += step)` with negative
step. -/
def downIdx (fuel : Nat) (i e step : ℤ) : List ℤ :=
  match fuel with
  | 0 => []
  | f + 1 => if e < i then i :: downIdx f (i + step) e step else []

/-- `range(start, stop, step)` contents: the accumulation loop
`i = start; while i < stop; i += step` in exact arithmetic produces
`start + k * step` for `k` below the iteration count
`max 0 ⌈(stop - start) / step⌉` (the same closed form covers the
negative-step loop `while i > stop`). -/
def rangeVals (start stop step : ℚ) : List Value :=
  let n := (ceilQ ((stop - start) / step)).toNat
  (List.range n).map (fun k => Value.num (start + k * step))

/-- `pat` is a leading prefix of `s`. -/
def leadMatch : List Char → List Char → Bool
  | [], _ => true
  | _ :: _, [] => false
  | c :: cs, d :: ds => c == d && leadMatch cs ds
  -- note: argument order is (pattern, string)

/-- `std::string::find` of a non-empty needle, as an offset. -/
def findSub : List Char → List Char → Option Nat
  | s, d =>
    if leadMatch d s then some 0
    else
      match s with
      | [] => none
      | _ :: tl => (findSub tl d).map (· + 1)

/-- Splitting loop of the `split` built-in (non-empty delimiter):
repeated find / take / erase. -/
def splitGo (fuel : Nat) (s d : List Char) : List (List Char) :=
  match fuel with
  | 0 => [s]
  | f + 1 =>
    match findSub s d with
    | none => [s]
    | some pos => s.take pos :: splitGo f (s.drop (pos + d.length)) d

/-- Replacement loop of the `replace` built-in: non-overlapping
left-to-right, resuming after the inserted replacement (`start_pos +=
new.length`), which is the same as recursing on the remainder past the
match. -/
def replaceGo (fuel : Nat) (s old new : List Char) : List Char :=
  match fuel with
  | 0 => s
  | f + 1 =>
    match findSub s old with
    | none => s
    | some pos => s.take pos ++ new ++ replaceGo f (s.drop (pos + old.length)) old new

/-- `std::stod` prefix parse, restricted to the decimal forms
(whitespace, sign, digits / fraction, exponent); hexadecimal and
inf/nan spellings are not modelled (no claim involves them).  Returns
the value and the number of characters consumed. -/
def parseNumPrefix (cs : List Char) : Option (ℚ × Nat) :=
  let ws := cs.takeWhile isSpaceC
  let r0 := cs.dropWhile isSpaceC
  let (sgn, sgnN, r1) : ℚ × Nat × List Char :=
    match r0 with
    | c :: rest =>
      if c = '-' then (-1, 1, rest)
      else if c = '+' then (1, 1, rest)
      else (1, 0, r0)
    | [] => (1, 0, r0)
  let ip := r1.takeWhile isDigitC
  let r2 := r1.dropWhile isDigitC
  let (fp, fpN, r3) : List Char × Nat × List Char :=
    match r2 with
    | c :: rest =>
      if c = '.' then
        (rest.takeWhile isDigitC, 1 + (rest.takeWhile isDigitC).length,
         rest.dropWhile isDigitC)
      else ([], 0, r2)
    | [] => ([], 0, r2)
  if ip.length = 0 ∧ fp.length = 0 then none
  else
    let (expV, expN) : ℤ × Nat :=
      match r3 with
      | c :: rest =>
        if c = 'e' ∨ c = 'E' then
          match rest with
          | s2 :: rest2 =>
            if s2 = '-' ∨ s2 = '+' then
              let ds := rest2.takeWhile isDigitC
              if ds.length = 0 then (0, 0)
              else
                (((if s2 = '-' then -1 else 1) : ℤ) *
                  ds.foldl (fun a d => a * 10 + ((d.toNat : ℤ) - 48)) 0,
                 2 + ds.length)
            else
              let ds := rest.takeWhile isDigitC
              if ds.length = 0 then (0, 0)
              else
                (ds.foldl (fun a d => a * 10 + ((d.toNat : ℤ) - 48)) 0,
                 1 + ds.length)
          | [] => (0, 0)
        else (0, 0)
      | [] => (0, 0)
    let ipQ : ℚ := (ip.foldl (fun a d => a * 10 + (d.toNat - 48)) 0 : ℕ)
    let fpQ : ℚ := (fp.foldl (fun a d => a * 10 + (d.toNat - 48)) 0 : ℕ)
    let v := sgn * (ipQ + fpQ / (10 : ℚ) ^ fp.length) * (10 : ℚ) ^ expV
    some (v, ws.length + sgnN + ip.length + fpN + expN)

/-- ASCII `tolower`. -/
def toLowerC (c : Char) : Char :=
  if isAlphaC c ∧ c.toNat ≤ 90 then Char.ofNat (c.toNat + 32) else c

/-- ASCII `toupper`. -/
def toUpperC (c : Char) : Char :=
  if isAlphaC c ∧ 97 ≤ c.toNat then Char.ofNat (c.toNat - 32) else c

/-- The reserved built-in names.  The source hardcodes the same set
twice: in the `FunctionCall` dispatch chain and in the bare-`Identifier`
error check. -/
def builtinNames : List String :=
  ["print", "range", "len", "push", "pop", "insert", "remove", "sort",
   "abs", "ceil", "floor", "round", "sqrt", "rnd", "parse_num",
   "to_string", "lower", "upper", "split", "join", "replace", "println"]

/-- Concatenation of the string elements visited by the slice loops;
`none` signals the `std::get<std::string>` failure (bad_variant_access)
on a non-string element. -/
def sliceStrConcat (l : List Value) : List ℤ → Option String
  | [] => some ""
  | i :: rest =>
    let v := l.getD i.toNat Value.nil
    if v.isString then (sliceStrConcat l rest).map (fun t => v.getStr ++ t)
    else none

/-- The accumulation loop of `join` (throws at the first non-string
element). -/
def joinGo (sep : String) : List Value → Except String String
  | [] => .ok ""
  | [v] =>
    if v.isString then .ok v.getStr
    else .error ("join() expects a list of strings; found non-string element: "
      ++ v.typeName)
  | v :: rest =>
    if v.isString then (joinGo sep rest).map (fun t => v.getStr ++ sep ++ t)
    else .error ("join() expects a list of strings; found non-string element: "
      ++ v.typeName)

/-- The single-index branch of `Interpreter::evaluate` (IndexAccess with
an index expression), after target and index have been evaluated. -/
def indexCore (tv iv : Value) (st : St) : Res × St :=
  if ¬ iv.isNumber then
    (.err ("Index must be a number. Got " ++ iv.typeName), st)
  else if (iv.getNum : ℚ) ≠ ((truncQ iv.getNum : ℤ) : ℚ) then
    -- the source appends the printed double; the numeric payload of the
    -- message is dropped here
    (.err "Index must be an integer.", st)
  else
    let ix := truncQ iv.getNum
    if tv.isString then
      let s := tv.getStr
      let len : ℤ := s.length
      let ix2 := if ix < 0 then ix + len else ix
      if ix2 < 0 ∨ len ≤ ix2 then
        (.err "String index out of bounds", st)
      else
        (.val (.str (String.mk [s.toList.getD ix2.toNat nulChar])), st)
    else if tv.isList then
      let l := listOf st tv.getAddr
      let len : ℤ := l.length
      let ix2 := if ix < 0 then ix + len else ix
      if ix2 < 0 ∨ len ≤ ix2 then
        (.err "List index out of bounds", st)
      else (.val (l.getD ix2.toNat .nil), st)
    else
      (.err ("Cannot apply index operator to type " ++ tv.typeName), st)

/-- The slice branch of `Interpreter::evaluate` after the (already
truncated) start/end/step components have been evaluated: normalise,
clamp, traverse, and concatenate the string elements. -/
def sliceCore (tv : Value) (start0 end0 step : ℤ) (st : St) : Res × St :=
  if ¬ tv.isList then
    (.err "Value is not a List, cannot call asList()", st)
  else
    let l := listOf st tv.getAddr
    let len : ℤ := l.length
    let start1 := if start0 < 0 then start0 + len else start0
    let end1 := if end0 < 0 then end0 + len else end0
    let start2 := min len (max 0 start1)
    let end2 := min len (max 0 end1)
    let idxs :=
      if 0 < step then
        upIdx ((end2 - start2).toNat + 1) start2 end2 step
      else
        (downIdx ((start2 - end2).toNat + 1) start2 end2 step).filter
          (fun i => decide (i < len ∧ 0 ≤ i))
    match sliceStrConcat l idxs with
    | some r => (.val (.str r), st)
    | none => (.errG "bad variant access", st)

/-! ## The evaluator (`Interpreter::evaluate` / `Interpreter::execute`)

All functions consume one unit of fuel per call; `Res.timeout` is the
embedding's fuel-exhaustion artifact (the source can diverge).  State —
environment, heap, output stream — is threaded through exceptional
results exactly as in the source: a C++ exception does not undo writes
to `globals`, the heap, or the output stream. -/

mutual

def evalE (fuel : Nat) (e : Expr) (st : St) : Res × St :=
  match fuel with
  | 0 => (.timeout, st)
  | f + 1 =>
    match e with
    | .numLit q => (.val (.num q), st)
    | .strLit s => (.val (.str s), st)
    | .nilLit => (.val .nil, st)
    | .listLit es =>
      match evalArgsL f es st with
      | (.vals vs, st1) =>
        let (a, h) := heapAlloc st1.heap vs
        (.val (.list a), { st1 with heap := h })
      | (.fail r, st1) => (r, st1)
    | .funcDef ps b => (.val (.fn ps b), st)
    | .ident n =>
      if builtinNames.contains n then
        (.err ("Built-in function '" ++ n ++
          "' must be called with parentheses ()"), st)
      else
        match envFind st.globals n with
        | some v => (.val v, st)
        | none => (.err ("Undefined variable: " ++ n), st)
    | .unaryOp op e1 =>
      match evalE f e1 st with
      | (.val v, st1) =>
        if op = "not" then
          (.val (.num (if asBoolSt st1 v then 0 else 1)), st1)
        else if op = "-" then
          if v.isNumber then (.val (.num (-v.getNum)), st1)
          else
            (.err ("Operand for unary '-' must be a number. Got " ++
              v.typeName), st1)
        else (.err ("Unknown unary operator: " ++ op), st1)
      | o => o
    | .binOp op l r =>
      match evalE f l st with
      | (.val lv, st1) =>
        match evalE f r st1 with
        | (.val rv, st2) => evalBinaryOp op lv rv st2
        | o => o
      | o => o
    | .assign n op v =>
      match evalE f v st with
      | (.val rv, st1) =>
        if op = "=" then (.val rv, { st1 with globals := envSet st1.globals n rv })
        else
          match envFind st1.globals n with
          | none =>
            (.err ("Undefined variable for compound assignment: " ++ n), st1)
          | some cur =>
            match evalCompound (op.dropRight 1) cur rv st1 with
            | (.val res, st2) =>
              (.val res, { st2 with globals := envSet st2.globals n res })
            | o => o
      | o => o
    | .index1 t i =>
      match evalE f t st with
      | (.val tv, st1) =>
        match evalE f i st1 with
        | (.val iv, st2) =>
          indexCore tv iv st2
        | o => o
      | o => o
    | .sliceE t s0 e0 p0 =>
      match evalE f t st with
      | (.val tv, st1) =>
        -- start, end default to 0; step defaults to 1; each present
        -- component is evaluated and truncated (no integrality check)
        match
          ((match s0 with
          | none => (.val (.num 0), st1)
          | some se =>
            match evalE f se st1 with
            | (.val sv, st2) =>
              if sv.isNumber then (.val sv, st2)
              else (.err "Slice start index must be a number.", st2)
            | o => o) : Res × St) with
        | (.val sv, st2) =>
          match
            ((match e0 with
            | none => (.val (.num 0), st2)
            | some ee =>
              match evalE f ee st2 with
              | (.val ev, st3) =>
                if ev.isNumber then (.val ev, st3)
                else (.err "Slice end index must be a number.", st3)
              | o => o) : Res × St) with
          | (.val ev, st3) =>
            match
              ((match p0 with
              | none => (.val (.num 1), st3)
              | some pe =>
                match evalE f pe st3 with
                | (.val pv, st4) =>
                  if pv.isNumber then
                    if truncQ pv.getNum = 0 then
                      (.err "Slice step cannot be zero.", st4)
                    else (.val pv, st4)
                  else (.err "Slice step must be a number.", st4)
                | o => o) : Res × St) with
            | (.val pv, st4) =>
              sliceCore tv (truncQ sv.getNum) (truncQ ev.getNum)
                (truncQ pv.getNum) st4
            | o => o
          | o => o
        | o => o
      | o => o
    | .call callee args =>
      match callee with
      | .ident funcName =>
        if funcName = "print" then printArgsLoop f args st
        else if funcName = "len" then
          match args with
          | [a0] =>
            match evalE f a0 st with
            | (.val v, st1) =>
              if v.isString then (.val (.num v.getStr.length), st1)
              else if v.isList then
                (.val (.num (listOf st1 v.getAddr).length), st1)
              else (.err "len() argument must be a string or list", st1)
            | o => o
          | _ => (.err "len() expects exactly 1 argument", st)
        else if funcName = "push" then
          match args with
          | [a0, a1] =>
            match evalE f a1 st with
            | (.val item, st1) =>
              match a0 with
              | .ident n =>
                match envFind st1.globals n with
                | some v =>
                  if v.isList then
                    let a := v.getAddr
                    (.val .nil,
                      { st1 with heap := (heapSet st1.heap a (listOf st1 a ++ [item])) })
                  else
                    (.err ("Variable '" ++ n ++
                      "' is not a list or not found for push()."), st1)
                | none =>
                  (.err ("Variable '" ++ n ++
                    "' is not a list or not found for push()."), st1)
              | _ =>
                (.err
                  "push() currently only supports pushing to lists stored in variables.",
                  st1)
            | o => o
          | _ => (.err "push() expects 2 arguments: list and value", st)
        else if funcName = "pop" then
          match args with
          | [a0] =>
            match a0 with
            | .ident n =>
              match envFind st.globals n with
              | some v =>
                if v.isList then
                  let a := v.getAddr
                  let l := listOf st a
                  if l.isEmpty then (.err "Cannot pop from an empty list.", st)
                  else
                    (.val (l.getLastD .nil),
                      { st with heap := heapSet st.heap a l.dropLast })
                else
                  (.err ("Variable '" ++ n ++
                    "' is not a list or not found for pop()."), st)
              | none =>
                (.err ("Variable '" ++ n ++
                  "' is not a list or not found for pop()."), st)
            | _ =>
              (.err
                "pop() currently only supports popping from lists stored in variables.",
                st)
          | _ => (.err "pop() expects 1 argument: list", st)
        else if funcName = "insert" then
          match args with
          | [a0, a1, a2] =>
            match evalE f a1 st with
            | (.val idxV, st1) =>
              match evalE f a2 st1 with
              | (.val item, st2) =>
                match a0 with
                | .ident n =>
                  match envFind st2.globals n with
                  | some v =>
                    if v.isList then
                      if ¬ idxV.isNumber then
                        (.err ("Second argument (index) to insert() must be a number. Got "
                          ++ idxV.typeName), st2)
                      else if (idxV.getNum : ℚ) ≠ ((truncQ idxV.getNum : ℤ) : ℚ) then
                        (.err "List index for insert() must be an integer.", st2)
                      else
                        let a := v.getAddr
                        let l := listOf st2 a
                        let ix := truncQ idxV.getNum
                        if ix < 0 ∨ (l.length : ℤ) < ix then
                          (.err "Index out of bounds for insert()", st2)
                        else
                          (.val .nil,
                            { st2 with heap := (heapSet st2.heap a
                                (l.take ix.toNat ++ item :: l.drop ix.toNat)) })
                    else
                      (.err ("Variable '" ++ n ++
                        "' is not a list or not found for insert()."), st2)
                  | none =>
                    (.err ("Variable '" ++ n ++
                      "' is not a list or not found for insert()."), st2)
                | _ =>
                  (.err
                    "insert() currently only supports inserting into lists stored in variables.",
                    st2)
              | o => o
            | o => o
          | _ => (.err "insert() expects 3 arguments: list, index, value", st)
        else if funcName = "remove" then
          match args with
          | [a0, a1] =>
            match evalE f a1 st with
            | (.val idxV, st1) =>
              match a0 with
              | .ident n =>
                match envFind st1.globals n with
                | some v =>
                  if v.isList then
                    if ¬ idxV.isNumber then
                      (.err ("Second argument (index) to remove() must be a number. Got "
                        ++ idxV.typeName), st1)
                    else if (idxV.getNum : ℚ) ≠ ((truncQ idxV.getNum : ℤ) : ℚ) then
                      (.err "List index for remove() must be an integer.", st1)
                    else
                      let a := v.getAddr
                      let l := listOf st1 a
                      let ix := truncQ idxV.getNum
                      if ix < 0 ∨ (l.length : ℤ) ≤ ix then
                        (.err "Index out of bounds for remove()", st1)
                      else
                        (.val (l.getD ix.toNat .nil),
                          { st1 with heap := (heapSet st1.heap a
                              (l.eraseIdx ix.toNat)) })
                  else
                    (.err ("Variable '" ++ n ++
                      "' is not a list or not found for remove()."), st1)
                | none =>
                  (.err ("Variable '" ++ n ++
                    "' is not a list or not found for remove()."), st1)
              | _ =>
                (.err
                  "remove() currently only supports removing from lists stored in variables.",
                  st1)
            | o => o
          | _ => (.err "remove() expects 2 arguments: list, index", st)
        else if funcName = "sort" then
          match args with
          | [a0] =>
            match a0 with
            | .ident n =>
              match envFind st.globals n with
              | some v =>
                if v.isList then
                  let a := v.getAddr
                  let l := listOf st a
                  if l.isEmpty then (.val .nil, st)
                  else if (l.headD .nil).isNumber then
                    if l.all Value.isNumber then
                      (.val .nil,
                        { st with heap := (heapSet st.heap a
                            ((List.insertionSort (α := ℚ) (· ≤ ·)
                              (l.map Value.getNum)).map Value.num)) })
                    else
                      (.err "Cannot sort list with mixed types (expected numbers).",
                        st)
                  else if (l.headD .nil).isString then
                    if l.all Value.isString then
                      (.val .nil,
                        { st with heap := (heapSet st.heap a
                            ((List.insertionSort (α := String) (· ≤ ·)
                              (l.map Value.getStr)).map Value.str)) })
                    else
                      (.err "Cannot sort list with mixed types (expected strings).",
                        st)
                  else
                    (.err ("sort() can only sort lists of numbers or lists of strings. First element type: "
                      ++ (l.headD .nil).typeName), st)
                else
                  (.err ("Variable '" ++ n ++
                    "' is not a list or not found for sort()."), st)
              | none =>
                (.err ("Variable '" ++ n ++
                  "' is not a list or not found for sort()."), st)
            | _ =>
              (.err "sort() currently only supports sorting lists stored in variables.",
                st)
          | _ => (.err "sort() expects 1 argument: list", st)
        else if funcName = "range" then
          match args with
          | [a0] =>
            match evalE f a0 st with
            | (.val v, st1) =>
              if v.isNumber then
                let (a, h) := heapAlloc st1.heap (rangeVals 0 v.getNum 1)
                (.val (.list a), { st1 with heap := h })
              else (.err "range() single argument (stop) must be a number", st1)
            | o => o
          | [a0, a1] =>
            match evalE f a0 st with
            | (.val v0, st1) =>
              match evalE f a1 st1 with
              | (.val v1, st2) =>
                if v0.isNumber && v1.isNumber then
                  let (a, h) := heapAlloc st2.heap (rangeVals v0.getNum v1.getNum 1)
                  (.val (.list a), { st2 with heap := h })
                else (.err "range() arguments (start, stop) must be numbers", st2)
              | o => o
            | o => o
          | [a0, a1, a2] =>
            match evalE f a0 st with
            | (.val v0, st1) =>
              match evalE f a1 st1 with
              | (.val v1, st2) =>
                match evalE f a2 st2 with
                | (.val v2, st3) =>
                  if v0.isNumber && v1.isNumber && v2.isNumber then
                    if v2.getNum = 0 then
                      (.err "range() step argument cannot be zero", st3)
                    else
                      let (a, h) := heapAlloc st3.heap
                        (rangeVals v0.getNum v1.getNum v2.getNum)
                      (.val (.list a), { st3 with heap := h })
                  else
                    (.err "range() arguments (start, stop, step) must be numbers",
                      st3)
                | o => o
              | o => o
            | o => o
          | _ => (.err "range() expects 1, 2, or 3 arguments", st)
        else if funcName = "abs" then
          match args with
          | [a0] =>
            match evalE f a0 st with
            | (.val v, st1) =>
              if v.isNumber then (.val (.num |v.getNum|), st1)
              else (.err "abs() argument must be a number", st1)
            | o => o
          | _ => (.err "abs() expects 1 argument", st)
        else if funcName = "ceil" then
          match args with
          | [a0] =>
            match evalE f a0 st with
            | (.val v, st1) =>
              if v.isNumber then (.val (.num (ceilQ v.getNum)), st1)
              else (.err "ceil() argument must be a number", st1)
            | o => o
          | _ => (.err "ceil() expects 1 argument", st)
        else if funcName = "floor" then
          match args with
          | [a0] =>
            match evalE f a0 st with
            | (.val v, st1) =>
              if v.isNumber then (.val (.num (floorQ v.getNum)), st1)
              else (.err "floor() argument must be a number", st1)
            | o => o
          | _ => (.err "floor() expects 1 argument", st)
        else if funcName = "round" then
          match args with
          | [a0] =>
            match evalE f a0 st with
            | (.val v, st1) =>
              if v.isNumber then (.val (.num (roundQ v.getNum)), st1)
              else (.err "round() argument must be a number", st1)
            | o => o
          | _ => (.err "round() expects 1 argument", st)
        else if funcName = "sqrt" then
          match args with
          | [a0] =>
            match evalE f a0 st with
            | (.val v, st1) =>
              if v.isNumber then
                if v.getNum < 0 then
                  (.err "sqrt() argument cannot be negative", st1)
                else (.val (.num (qsqrtModel v.getNum)), st1)
              else (.err "sqrt() argument must be a number", st1)
            | o => o
          | _ => (.err "sqrt() expects 1 argument", st)
        else if funcName = "rnd" then
          match args with
          | [] => (.val (.num 0), st)    -- stand-in for rand()/RAND_MAX
          | _ => (.err "rnd() expects 0 arguments", st)
        else if funcName = "parse_num" then
          match args with
          | [a0] =>
            match evalE f a0 st with
            | (.val v, st1) =>
              if v.isString then
                match parseNumPrefix v.getStr.toList with
                | some (q, n) =>
                  if n = v.getStr.length then (.val (.num q), st1)
                  else (.val .nil, st1)
                | none => (.val .nil, st1)
              else
                (.err ("parse_num() argument must be a string. Got " ++
                  v.typeName), st1)
            | o => o
          | _ => (.err "parse_num() expects 1 argument", st)
        else if funcName = "to_string" then
          match args with
          | [a0] =>
            match evalE f a0 st with
            | (.val v, st1) =>
              match v with
              | .num q => (.val (.str (fmtNum q)), st1)
              | .str s => (.val (.str s), st1)
              | .nil => (.val (.str "nil"), st1)
              | _ => (.val (.str (valToString f st1 v)), st1)
            | o => o
          | _ => (.err "to_string() expects 1 argument", st)
        else if funcName = "lower" then
          match args with
          | [a0] =>
            match evalE f a0 st with
            | (.val v, st1) =>
              if v.isString then
                (.val (.str (String.mk (v.getStr.toList.map toLowerC))), st1)
              else (.err "lower() argument must be a string", st1)
            | o => o
          | _ => (.err "lower() expects 1 argument", st)
        else if funcName = "upper" then
          match args with
          | [a0] =>
            match evalE f a0 st with
            | (.val v, st1) =>
              if v.isString then
                (.val (.str (String.mk (v.getStr.toList.map toUpperC))), st1)
              else (.err "upper() argument must be a string", st1)
            | o => o
          | _ => (.err "upper() expects 1 argument", st)
        else if funcName = "split" then
          match args with
          | [a0, a1] =>
            match evalE f a0 st with
            | (.val v0, st1) =>
              match evalE f a1 st1 with
              | (.val v1, st2) =>
                if ¬ v0.isString then
                  (.err "split() first argument must be a string", st2)
                else if ¬ v1.isString then
                  (.err "split() second argument (delimiter) must be a string",
                    st2)
                else
                  let s := v0.getStr.toList
                  let d := v1.getStr.toList
                  let parts :=
                    if d.isEmpty then s.map (fun c => Value.str (String.mk [c]))
                    else (splitGo (s.length + 1) s d).map
                      (fun p => Value.str (String.mk p))
                  let (a, h) := heapAlloc st2.heap parts
                  (.val (.list a), { st2 with heap := h })
              | o => o
            | o => o
          | _ => (.err "split() expects 2 arguments: string and delimiter", st)
        else if funcName = "join" then
          match args with
          | [a0, a1] =>
            match evalE f a0 st with
            | (.val v0, st1) =>
              match evalE f a1 st1 with
              | (.val v1, st2) =>
                if ¬ v0.isList then
                  (.err "join() first argument must be a list of strings", st2)
                else if ¬ v1.isString then
                  (.err "join() second argument (separator) must be a string",
                    st2)
                else
                  match joinGo v1.getStr (listOf st2 v0.getAddr) with
                  | .ok s => (.val (.str s), st2)
                  | .error m => (.err m, st2)
              | o => o
            | o => o
          | _ =>
            (.err "join() expects 2 arguments: list_of_strings and separator", st)
        else if funcName = "replace" then
          match args with
          | [a0, a1, a2] =>
            match evalE f a0 st with
            | (.val v0, st1) =>
              match evalE f a1 st1 with
              | (.val v1, st2) =>
                match evalE f a2 st2 with
                | (.val v2, st3) =>
                  if ¬ (v0.isString && v1.isString && v2.isString) then
                    (.err "replace() all arguments must be strings", st3)
                  else if v1.getStr = "" then
                    (.err "replace() 'old_substring' cannot be empty.", st3)
                  else
                    let s := v0.getStr.toList
                    (.val (.str (String.mk
                      (replaceGo (s.length + 1) s v1.getStr.toList v2.getStr.toList))),
                      st3)
                | o => o
              | o => o
            | o => o
          | _ =>
            (.err "replace() expects 3 arguments: string, old_substring, new_substring",
              st)
        else if funcName = "println" then
          match printArgsLoop f args st with
          | (.val _, st1) => (.val .nil, { st1 with out := st1.out ++ "\n" })
          | o => o
        else userCall f callee args st
      | _ => userCall f callee args st

/-- The non-built-in function-call path: evaluate the callee, check it
is a function of matching arity, snapshot `globals`, evaluate the
arguments, bind the parameters, execute the body, and restore the
snapshot on normal completion or `ReturnValue` only — any other
exception propagates without restoring. -/
def userCall (fuel : Nat) (callee : Expr) (args : List Expr) (st : St) :
    Res × St :=
  match fuel with
  | 0 => (.timeout, st)
  | f + 1 =>
    match evalE f callee st with
    | (.val fv, st1) =>
      match fv with
      | .fn params body =>
        if args.length ≠ params.length then
          (.err ("Wrong number of arguments for function. Expected " ++
            toString params.length ++ ", Got " ++ toString args.length), st1)
        else
          let old := st1.globals
          match evalArgsL f args st1 with
          | (.vals vs, st2) =>
            let st3 := { st2 with globals :=
              ((params.zip vs).foldl (fun g pv => envSet g pv.1 pv.2) st2.globals) }
            match execB f body st3 with
            | (.val _, st4) => (.val .nil, { st4 with globals := old })
            | (.ret v, st4) => (.val v, { st4 with globals := old })
            | o => o
          | (.fail r, st2) => (r, st2)
      | _ =>
        (.err ("Attempted to call a non-function value (type: " ++ fv.typeName
          ++ ") derived from: " ++
          (match callee with | .ident n => n | _ => "expression")), st1)
    | o => o

/-- Left-to-right evaluation of an expression list (list literals and
call arguments). -/
def evalArgsL (fuel : Nat) (es : List Expr) (st : St) : ResVs × St :=
  match fuel with
  | 0 => (.fail .timeout, st)
  | f + 1 =>
    match es with
    | [] => (.vals [], st)
    | e :: rest =>
      match evalE f e st with
      | (.val v, st1) =>
        match evalArgsL f rest st1 with
        | (.vals vs, st2) => (.vals (v :: vs), st2)
        | o => o
      | (r, st1) => (.fail r, st1)

/-- The argument loop of `print` (each argument is evaluated and written
immediately; an exception midway leaves the earlier output). -/
def printArgsLoop (fuel : Nat) (es : List Expr) (st : St) : Res × St :=
  match fuel with
  | 0 => (.timeout, st)
  | f + 1 =>
    match es with
    | [] => (.val .nil, st)
    | e :: rest =>
      match evalE f e st with
      | (.val v, st1) =>
        printArgsLoop f rest { st1 with out := st1.out ++ printFmt f st1 v }
      | o => o

def execS (fuel : Nat) (s : Stmt) (st : St) : Res × St :=
  match fuel with
  | 0 => (.timeout, st)
  | f + 1 =>
    match s with
    | .exprStmt e => evalE f e st
    | .retStmt none => (.ret .nil, st)
    | .retStmt (some e) =>
      match evalE f e st with
      | (.val v, st1) => (.ret v, st1)
      | o => o
    | .brkStmt => (.brk, st)
    | .cntStmt => (.cnt, st)
    | .ifStmt c tb elifs eb =>
      match evalE f c st with
      | (.val v, st1) =>
        if asBoolSt st1 v then execB f tb st1
        else evalElifs f elifs eb st1
      | o => o
    | .whileStmt c b =>
      match evalE f c st with
      | (.val v, st1) =>
        if asBoolSt st1 v then
          match execB f b st1 with
          | (.val _, st2) => execS f (.whileStmt c b) st2
          | (.cnt, st2) => execS f (.whileStmt c b) st2
          | (.brk, st2) => (.val .nil, st2)
          | o => o
        else (.val .nil, st1)
      | o => o
    | .forStmt x it b =>
      match it with
      | .call (.ident "range") _ =>
        -- the syntactic range(...) special case: evaluate the call once
        -- and iterate its list
        match evalE f it st with
        | (.val rv, st1) =>
          match rv with
          | .list a => forLoopVals f x (listOf st1 a) b st1
          | _ => (.err "Value is not a List, cannot call asList()", st1)
        | o => o
      | _ =>
        match evalE f it st with
        | (.val v, st1) =>
          if v.isList then forLoopVals f x (listOf st1 v.getAddr) b st1
          else if v.isString then
            forLoopVals f x
              (v.getStr.toList.map (fun c => Value.str (String.mk [c]))) b st1
          else
            (.err ("For loop can only iterate over lists or strings. Got: " ++
              v.typeName), st1)
        | o => o

/-- The `else if` chain walk of the `IfStatement` execution. -/
def evalElifs (fuel : Nat) (elifs : List (Expr × Blk)) (eb : Option Blk)
    (st : St) : Res × St :=
  match fuel with
  | 0 => (.timeout, st)
  | f + 1 =>
    match elifs with
    | [] =>
      match eb with
      | some b => execB f b st
      | none => (.val .nil, st)
    | (c, b) :: rest =>
      match evalE f c st with
      | (.val v, st1) =>
        if asBoolSt st1 v then execB f b st1
        else evalElifs f rest eb st1
      | o => o

/-- Iteration of a `for` body over a precomputed value list (the source
iterates lists directly and strings as single-character strings; both
loops catch break/continue identically). -/
def forLoopVals (fuel : Nat) (x : String) (items : List Value) (b : Blk)
    (st : St) : Res × St :=
  match fuel with
  | 0 => (.timeout, st)
  | f + 1 =>
    match items with
    | [] => (.val .nil, st)
    | v :: rest =>
      let st1 := { st with globals := envSet st.globals x v }
      match execB f b st1 with
      | (.val _, st2) => forLoopVals f x rest b st2
      | (.cnt, st2) => forLoopVals f x rest b st2
      | (.brk, st2) => (.val .nil, st2)
      | o => o

def execB (fuel : Nat) (b : Blk) (st : St) : Res × St :=
  match fuel with
  | 0 => (.timeout, st)
  | f + 1 => execStmts f b.stmts .nil st

/-- Statement sequencing of a block; the running value of the last
executed statement is the block's value. -/
def execStmts (fuel : Nat) (ss : List Stmt) (last : Value) (st : St) :
    Res × St :=
  match fuel with
  | 0 => (.timeout, st)
  | f + 1 =>
    match ss with
    | [] => (.val last, st)
    | s :: rest =>
      match execS f s st with
      | (.val v, st1) => execStmts f rest v st1
      | o => o

end

/-! ## Top level (`interpret` in interpreter.cpp) -/

/-- Outcome of the top-level `interpret` call: a returned boolean with
the accumulated output, or an escape of a non-`std::exception` object
(`BreakSignal` / `ContinueSignal`), which neither catch clause in
`interpret` handles — the exception leaves `interpret` and terminates
the process; or fuel exhaustion of the embedding. -/
inductive RunOutcome where
  | finished (ok : Bool) (out : String)
  | crashed (out : String)
  | hungOut (out : String)
deriving DecidableEq, Repr

/-- `interpret(std::istream&, std::ostream&)`: lex, parse, execute.
`std::runtime_error` is reported with the `specific` prefix, any other
`std::exception` with the `generic` prefix; `ReturnValue` at the top
level is swallowed by `Interpreter::interpret`; the break/continue
sentinel structs match neither catch clause. -/
def interpret (fuel : Nat) (src : String) : RunOutcome :=
  match tokenize src.toList with
  | .error e => .finished false ("Runtime error (specific): " ++ e ++ "\n")
  | .ok toks =>
    match parseTop fuel toks with
    | .error e => .finished false ("Runtime error (specific): " ++ e ++ "\n")
    | .ok blk =>
      match execB fuel blk initSt with
      | (.val _, st) => .finished true st.out
      | (.ret _, st) => .finished true st.out
      | (.err m, st) =>
        .finished false (st.out ++ "Runtime error (specific): " ++ m ++ "\n")
      | (.errG m, st) =>
        .finished false (st.out ++ "Runtime error (generic): " ++ m ++ "\n")
      | (.brk, st) => .crashed st.out
      | (.cnt, st) => .crashed st.out
      | (.timeout, st) => .hungOut st.out

/-! ## Auxiliary observations used by the theorems -/

/-- Successful-value projection of an evaluation result (used to compare
two dispatch paths on success behaviour, ignoring message texts). -/
def successOf (p : Res × St) : Option (Value × St) :=
  match p with
  | (.val v, st) => some (v, st)
  | _ => none

/-! No binary-operation node of the AST carries the operator string
`^` (the exponent operator exists only inside compound assignment):
decidable form checked recursively over the whole tree. -/

mutual

def noCaretE : Expr → Bool
  | .numLit _ => true
  | .strLit _ => true
  | .nilLit => true
  | .listLit es => noCaretEs es
  | .ident _ => true
  | .binOp op l r => (decide (op ≠ "^")) && noCaretE l && noCaretE r
  | .unaryOp _ e => noCaretE e
  | .call c as => noCaretE c && noCaretEs as
  | .index1 t i => noCaretE t && noCaretE i
  | .sliceE t s e p =>
    noCaretE t && noCaretEO s && noCaretEO e && noCaretEO p
  | .funcDef _ b => noCaretB b
  | .assign _ _ v => noCaretE v

def noCaretEs : List Expr → Bool
  | [] => true
  | e :: es => noCaretE e && noCaretEs es

def noCaretEO : Option Expr → Bool
  | none => true
  | some e => noCaretE e

def noCaretS : Stmt → Bool
  | .exprStmt e => noCaretE e
  | .retStmt v => noCaretEO v
  | .brkStmt => true
  | .cntStmt => true
  | .ifStmt c tb elifs eb =>
    noCaretE c && noCaretB tb && noCaretPairs elifs && noCaretBO eb
  | .whileStmt c b => noCaretE c && noCaretB b
  | .forStmt _ it b => noCaretE it && noCaretB b

def noCaretPairs : List (Expr × Blk) → Bool
  | [] => true
  | (e, b) :: rest => noCaretE e && noCaretB b && noCaretPairs rest

def noCaretBO : Option Blk → Bool
  | none => true
  | some b => noCaretB b

def noCaretB : Blk → Bool
  | .mk ss => noCaretSs ss

def noCaretSs : List Stmt → Bool
  | [] => true
  | s :: ss => noCaretS s && noCaretSs ss

end

/-! # Theorems -/

/-! ## Character-classification facts used by the lexer theorems -/

lemma isAlphaC_props {c : Char} (h : isAlphaC c = true) :
    (65 ≤ c.toNat ∧ c.toNat ≤ 90) ∨ (97 ≤ c.toNat ∧ c.toNat ≤ 122) := by
  simpa [isAlphaC] using h

lemma alphaNotNl {c : Char} (h : isAlphaC c = true) : ¬ c = nlChar := by
  intro he
  have h' := isAlphaC_props h
  have hn : c.toNat = 10 := by rw [he]; rfl
  omega

lemma alphaNotSpace {c : Char} (h : isAlphaC c = true) : isSpaceC c = false := by
  have h' := isAlphaC_props h
  simp only [isSpaceC, decide_eq_false_iff_not]
  omega

lemma alphaNotSlash {c : Char} (h : isAlphaC c = true) : ¬ c = slashChar := by
  intro he
  have h' := isAlphaC_props h
  have hn : c.toNat = 47 := by rw [he]; rfl
  omega

/-- C7: the specification and the repository's own system-function tests
require `read()` to return the empty string and `stacktrace()` to return
an empty list, with `interpret` succeeding; but neither name exists in
the evaluator's built-in dispatch (nor in the environment), so both
programs fail with an "Undefined variable" runtime error and `interpret`
returns false. -/
theorem claimC7_read_stacktrace_missing :
    interpret 100 "s = read()" =
      .finished false "Runtime error (specific): Undefined variable: read\n" ∧
    interpret 100 "print(stacktrace())" =
      .finished false
        "Runtime error (specific): Undefined variable: stacktrace\n" :=
  ⟨rfl, rfl⟩

/-- C2 counterexample: the programs `break` and `continue` at top level
do NOT make `interpret` return false with a `Runtime error (…)`
diagnostic: `BreakSignal` / `ContinueSignal` are not derived from
`std::exception`, so neither catch clause in `interpret` matches and the
exception escapes the function (terminating the process) with nothing
written to the output stream. -/
theorem claimC2_counterexample :
    interpret 100 "break" = .crashed "" ∧
    interpret 100 "continue" = .crashed "" :=
  ⟨rfl, rfl⟩

/-- C2 (amended): a break or continue signal that reaches the top level
of execution escapes the `interpret` function as an uncaught exception:
`interpret` does not return false and no `Runtime error` diagnostic is
appended to the output (only output already written before the signal
remains). -/
theorem claimC2_amended (fuel : Nat) (src : String) (toks : List Tok)
    (blk : Blk) (st : St)
    (hl : tokenize src.toList = .ok toks)
    (hp : parseTop fuel toks = .ok blk) :
    (execB fuel blk initSt = (.brk, st) → interpret fuel src = .crashed st.out)
    ∧
    (execB fuel blk initSt = (.cnt, st) → interpret fuel src = .crashed st.out)
    := by
  constructor <;> intro hx <;> simp only [interpret, hl, hp, hx]

/-- C2 witness: the amended theorem applied to the one-statement program
`break`. -/
theorem claimC2_witness : interpret 10 "break" = .crashed "" :=
  (claimC2_amended 10 "break" [⟨TokType.keywordT, "break"⟩, eofTok]
    (Blk.mk [Stmt.brkStmt]) initSt rfl rfl).1 rfl

/-- C8 counterexample: a lexeme beginning with an underscore is NOT
tokenised as an Identifier; the scanner only starts identifier runs on
`isalpha`, so a leading underscore falls through to `readSymbol` and is
a fatal "Unexpected character" lexical error. -/
theorem claimC8_counterexample :
    tokenize "_x".toList = .error "Unexpected character: _" := rfl

/-- C8 (amended): an ALPHABETIC character (not an underscore) begins an
identifier run; the run extends over `[A-Za-z0-9_]*`, and the emitted
token is a Keyword when the lexeme is in the reserved set, an Identifier
otherwise.  A leading underscore is a lexical error ("Unexpected
character"). -/
theorem claimC8_amended (fuel : Nat) (c : Char) (cs : List Char) :
    (isAlphaC c = true →
      tokenizeAux (fuel + 1) (c :: cs) =
        match tokenizeAux fuel ((c :: cs).dropWhile isIdentContC) with
        | .ok ts =>
          .ok (⟨(if reservedWords.contains
                    (String.mk ((c :: cs).takeWhile isIdentContC)) then
                  TokType.keywordT
                else TokType.identT),
                String.mk ((c :: cs).takeWhile isIdentContC)⟩ :: ts)
        | .error e => .error e) ∧
    tokenizeAux (fuel + 1) (underscoreChar :: cs) =
      .error "Unexpected character: _" := by
  constructor
  · intro h
    have h1 := alphaNotNl h
    have h2 := alphaNotSpace h
    have h3 := alphaNotSlash h
    simp only [tokenizeAux, readIdentTok]
    rw [if_neg h1, if_neg (by simp [h2]), if_neg (fun hc => h3 hc.1), if_pos h]
    by_cases hr : reservedWords.contains (String.mk ((c :: cs).takeWhile isIdentContC))
    · simp only [hr, if_pos]
    · simp only [hr, if_neg, Bool.false_eq_true, not_false_eq_true]
  · rfl

/-- C8 witness: the amended theorem at `c = 'f'`, `cs = "or 1"`,
recognising the keyword `for`, and the underscore error at the same
tail. -/
theorem claimC8_witness :
    tokenizeAux 9 ('f' :: "or 1".toList) =
      (match tokenizeAux 8 (('f' :: "or 1".toList).dropWhile isIdentContC) with
        | .ok ts =>
          .ok (⟨(if reservedWords.contains
                    (String.mk (('f' :: "or 1".toList).takeWhile isIdentContC))
                 then TokType.keywordT
                 else TokType.identT),
                String.mk (('f' :: "or 1".toList).takeWhile isIdentContC)⟩ :: ts)
        | .error e => .error e) ∧
    tokenizeAux 9 (underscoreChar :: "or 1".toList) =
      .error "Unexpected character: _" :=
  ⟨(claimC8_amended 8 'f' "or 1".toList).1 rfl,
   (claimC8_amended 8 'f' "or 1".toList).2⟩

/-- C10: a source text that ends inside a string literal (the body scan
reaches end of input with no closing quote) is not a lexical error: the
scanner emits a String token whose lexeme is the escape-processed
remainder of the input (`readStringBody`) and terminates normally with
an EndOfFile token. -/
theorem claimC10_unterminated_string (tail v : List Char)
    (h : readStringBody tail = (v, [])) :
    tokenize (quoteChar :: tail) =
      .ok [⟨TokType.stringT, String.mk v⟩, eofTok] := by
  show tokenizeAux ((quoteChar :: tail).length + 1) (quoteChar :: tail) = _
  simp only [List.length_cons]
  simp only [tokenizeAux, readStringTok, h]
  rfl

/-- C10 witness: the theorem at the input `"ab` (opening quote, then
`ab`, then end of input). -/
theorem claimC10_witness :
    tokenize (quoteChar :: "ab".toList) =
      .ok [⟨TokType.stringT, String.mk "ab".toList⟩, eofTok] :=
  claimC10_unterminated_string "ab".toList "ab".toList rfl

/-- C1 counterexample: after `xs = [1]` and
`f = function() push(xs, 99) end function`, the call `f()` exits by
normal completion and the name→value map is restored — but the in-place
mutation `push(xs, 99)` performed inside the call is NOT lost: the
restored binding of `xs` still points at the same (now mutated) list
cell, whose contents changed from `[1]` to `[1, 99]`. -/
theorem claimC1_counterexample :
    (execB 20
        (Blk.mk
          [Stmt.exprStmt (.assign "xs" "=" (.listLit [.numLit 1])),
           Stmt.exprStmt (.assign "f" "="
             (.funcDef []
               (Blk.mk [Stmt.exprStmt
                 (.call (.ident "push") [.ident "xs", .numLit 99])])))])
        initSt =
      (.val (.fn []
          (Blk.mk [Stmt.exprStmt
            (.call (.ident "push") [.ident "xs", .numLit 99])])),
        ⟨[("len", Value.nil), ("xs", Value.list 0),
          ("f", Value.fn []
            (Blk.mk [Stmt.exprStmt
              (.call (.ident "push") [.ident "xs", .numLit 99])]))],
         [[Value.num 1]], ""⟩)) ∧
    (execS 20 (Stmt.exprStmt (.call (.ident "f") []))
        ⟨[("len", Value.nil), ("xs", Value.list 0),
          ("f", Value.fn []
            (Blk.mk [Stmt.exprStmt
              (.call (.ident "push") [.ident "xs", .numLit 99])]))],
         [[Value.num 1]], ""⟩ =
      (.val Value.nil,
        ⟨[("len", Value.nil), ("xs", Value.list 0),
          ("f", Value.fn []
            (Blk.mk [Stmt.exprStmt
              (.call (.ident "push") [.ident "xs", .numLit 99])]))],
         [[Value.num 1, Value.num 99]], ""⟩)) ∧
    listOf ⟨[("len", Value.nil), ("xs", Value.list 0),
         ("f", Value.fn []
           (Blk.mk [Stmt.exprStmt
             (.call (.ident "push") [.ident "xs", .numLit 99])]))],
        [[Value.num 1]], ""⟩ 0 = [Value.num 1] ∧
    listOf ⟨[("len", Value.nil), ("xs", Value.list 0),
         ("f", Value.fn []
           (Blk.mk [Stmt.exprStmt
             (.call (.ident "push") [.ident "xs", .numLit 99])]))],
        [[Value.num 1, Value.num 99]], ""⟩ 0 = [Value.num 1, Value.num 99] :=
  ⟨rfl, rfl, rfl, rfl⟩

/-- Argument evaluation never fails with a `val` result: the failure
channel carries only the exceptional outcomes. -/
lemma evalArgsL_no_val_fail :
    ∀ (f : Nat) (es : List Expr) (st : St) (r : Res) (st' : St),
      evalArgsL f es st = (.fail r, st') → ∀ w, r ≠ Res.val w := by
  intro f
  induction f with
  | zero =>
    intro es st r st' h w
    simp only [evalArgsL] at h
    obtain ⟨h1, -⟩ := Prod.mk.injEq .. ▸ h
    cases h1
    simp
  | succ f ih =>
    intro es st r st' h w
    cases es with
    | nil => simp [evalArgsL] at h
    | cons e rest =>
      simp only [evalArgsL] at h
      rcases hE : evalE f e st with ⟨r1, st1⟩
      rw [hE] at h
      cases r1 with
      | val v =>
        dsimp only at h
        rcases hA : evalArgsL f rest st1 with ⟨r2, st2⟩
        rw [hA] at h
        cases r2 with
        | vals vs => dsimp only at h; simp at h
        | fail r3 =>
          dsimp only at h
          simp only [ResVs.fail.injEq, Prod.mk.injEq] at h
          obtain ⟨h1, -⟩ := h
          cases h1
          exact ih rest st1 _ st2 hA w
      | err m =>
        dsimp only at h
        simp only [ResVs.fail.injEq, Prod.mk.injEq] at h
        obtain ⟨h1, -⟩ := h
        cases h1
        simp
      | errG m =>
        dsimp only at h
        simp only [ResVs.fail.injEq, Prod.mk.injEq] at h
        obtain ⟨h1, -⟩ := h
        cases h1
        simp
      | ret w2 =>
        dsimp only at h
        simp only [ResVs.fail.injEq, Prod.mk.injEq] at h
        obtain ⟨h1, -⟩ := h
        cases h1
        simp
      | brk =>
        dsimp only at h
        simp only [ResVs.fail.injEq, Prod.mk.injEq] at h
        obtain ⟨h1, -⟩ := h
        cases h1
        simp
      | cnt =>
        dsimp only at h
        simp only [ResVs.fail.injEq, Prod.mk.injEq] at h
        obtain ⟨h1, -⟩ := h
        cases h1
        simp
      | timeout =>
        dsimp only at h
        simp only [ResVs.fail.injEq, Prod.mk.injEq] at h
        obtain ⟨h1, -⟩ := h
        cases h1
        simp


/-- C1 (amended): for every non-built-in function call that exits with a
value (normal completion of the body yielding Nil, or a return), the
name→value binding map after the call equals the snapshot of `globals`
taken on entry (just after the callee was evaluated): rebindings made
during the call are lost.  `userCall` is the evaluator's call path for
every callee that is not a built-in name.  In-place mutations of shared
list cells are not part of the binding map and persist (see the
counterexample); exits via uncaught errors or break/continue signals do
not restore at all. -/
theorem claimC1_amended (f : Nat) (c : Expr) (as : List Expr) (st : St)
    (v : Value) (st' : St)
    (hE : userCall (f + 1) c as st = (.val v, st')) :
    st'.globals = (evalE f c st).2.globals := by
  simp only [userCall] at hE
  rcases hC : evalE f c st with ⟨r1, st1⟩
  rw [hC] at hE
  cases r1 with
  | val fv =>
    dsimp only at hE
    cases fv with
    | fn params body =>
      dsimp only at hE
      split at hE
      · simp at hE
      · rcases hA : evalArgsL f as st1 with ⟨r2, st2⟩
        rw [hA] at hE
        cases r2 with
        | vals vs =>
          dsimp only at hE
          rcases hB : execB f body
              { st2 with globals :=
                ((params.zip vs).foldl (fun g pv => envSet g pv.1 pv.2)
                  st2.globals) } with ⟨r4, st4⟩
          rw [hB] at hE
          cases r4 with
          | val w =>
            dsimp only at hE
            simp only [Res.val.injEq, Prod.mk.injEq] at hE
            obtain ⟨-, h2⟩ := hE
            subst h2
            rfl
          | ret w =>
            dsimp only at hE
            simp only [Res.val.injEq, Prod.mk.injEq] at hE
            obtain ⟨-, h2⟩ := hE
            subst h2
            rfl
          | err m => dsimp only at hE; simp at hE
          | errG m => dsimp only at hE; simp at hE
          | brk => dsimp only at hE; simp at hE
          | cnt => dsimp only at hE; simp at hE
          | timeout => dsimp only at hE; simp at hE
        | fail r3 =>
          dsimp only at hE
          simp only [Prod.mk.injEq] at hE
          exact absurd hE.1 (evalArgsL_no_val_fail f as st1 r3 st2 hA v)
    | num q => dsimp only at hE; simp at hE
    | str s2 => dsimp only at hE; simp at hE
    | list a => dsimp only at hE; simp at hE
    | nil => dsimp only at hE; simp at hE
  | err m => dsimp only at hE; simp at hE
  | errG m => dsimp only at hE; simp at hE
  | ret w => dsimp only at hE; simp at hE
  | brk => dsimp only at hE; simp at hE
  | cnt => dsimp only at hE; simp at hE
  | timeout => dsimp only at hE; simp at hE

/-- C1 witness: the amended theorem applied to the concrete call `f()`
of the counterexample state (the binding map is restored even though the
heap cell of `xs` was mutated). -/
theorem claimC1_witness :
    (⟨[("len", Value.nil), ("xs", Value.list 0),
       ("f", Value.fn []
         (Blk.mk [Stmt.exprStmt
           (.call (.ident "push") [.ident "xs", .numLit 99])]))],
      [[Value.num 1, Value.num 99]], ""⟩ : St).globals =
    (evalE 10 (.ident "f")
      ⟨[("len", Value.nil), ("xs", Value.list 0),
        ("f", Value.fn []
          (Blk.mk [Stmt.exprStmt
            (.call (.ident "push") [.ident "xs", .numLit 99])]))],
       [[Value.num 1]], ""⟩).2.globals :=
  claimC1_amended 10 (.ident "f") []
    ⟨[("len", Value.nil), ("xs", Value.list 0),
      ("f", Value.fn []
        (Blk.mk [Stmt.exprStmt
          (.call (.ident "push") [.ident "xs", .numLit 99])]))],
     [[Value.num 1]], ""⟩
    Value.nil
    ⟨[("len", Value.nil), ("xs", Value.list 0),
      ("f", Value.fn []
        (Blk.mk [Stmt.exprStmt
          (.call (.ident "push") [.ident "xs", .numLit 99])]))],
     [[Value.num 1, Value.num 99]], ""⟩
    rfl

/-- C4 counterexample: with `x` bound to the Number 2, the compound
assignment `x *= "ab"` raises a runtime error while the binary
expression `x * "ab"` succeeds with `"abab"` — so the compound form does
NOT follow exactly the same type rules as the binary operator. -/
theorem claimC4_counterexample :
    evalE 5 (.assign "x" "*=" (.strLit "ab"))
        ⟨[("len", Value.nil), ("x", Value.num 2)], [], ""⟩ =
      (.err "Operator '*=' with number on left and string on right is not supported.",
        ⟨[("len", Value.nil), ("x", Value.num 2)], [], ""⟩) ∧
    evalE 5 (.binOp "*" (.ident "x") (.strLit "ab"))
        ⟨[("len", Value.nil), ("x", Value.num 2)], [], ""⟩ =
      (.val (.str "abab"),
        ⟨[("len", Value.nil), ("x", Value.num 2)], [], ""⟩) :=
  ⟨rfl, rfl⟩

/-- C4 (amended): for each compound operator, the compound dispatch and
the binary dispatch succeed on the same current-value/right-hand-side
pairs with the same resulting value and state — EXCEPT for `*=` with a
Number on the left and a String or List on the right, where the binary
`*` repeats the string/list but the compound form errors. -/
theorem claimC4_amended (bop : String) (cur rhs : Value) (st : St)
    (hop : bop ∈ (["+", "-", "*", "/", "%", "^"] : List String))
    (hexc : ¬ (bop = "*" ∧ cur.isNumber = true ∧
               (rhs.isString = true ∨ rhs.isList = true))) :
    successOf (evalCompound bop cur rhs st) =
      successOf (evalBinaryOp bop cur rhs st) := by
  fin_cases hop <;> cases cur <;> cases rhs <;>
    first
      | (simp [evalCompound, evalBinaryOp, successOf, Value.isNumber,
           Value.isString, Value.isList, Value.isNil, Value.getNum,
           Value.getStr, Value.getAddr]
         try (split_ifs <;> simp [successOf])
         done)
      | exact absurd ⟨rfl, rfl, by simp [Value.isString, Value.isList]⟩ hexc

set_option maxHeartbeats 1000000 in

theorem claimC4_witness :
    successOf (evalCompound "+" (.str "ab") (.str "cd") initSt) =
      successOf (evalBinaryOp "+" (.str "ab") (.str "cd") initSt) :=
  claimC4_amended "+" (.str "ab") (.str "cd") initSt (by decide)
    (by intro hx; exact absurd hx.1 (by decide))

/-- C5: `and` and `or` are eager — whenever both operand expressions
evaluate to values, the whole expression evaluates both (the final state
is the state after the right operand even when the left operand already
decides the outcome) and yields the Number 1 or 0 obtained by the
logical operation on `asBool` of each operand, where `asBool` maps a
Number to (≠0), a String to (nonempty), a List to (nonempty), a Function
to true and Nil to false (`asBoolSt`). -/
theorem claimC5_eager_and_or (f : Nat) (l r : Expr) (st st1 st2 : St)
    (lv rv : Value)
    (hl : evalE f l st = (.val lv, st1))
    (hr : evalE f r st1 = (.val rv, st2)) :
    evalE (f + 1) (.binOp "and" l r) st =
      (.val (.num (if asBoolSt st2 lv && asBoolSt st2 rv then 1 else 0)), st2)
    ∧
    evalE (f + 1) (.binOp "or" l r) st =
      (.val (.num (if asBoolSt st2 lv || asBoolSt st2 rv then 1 else 0)), st2)
    := by
  have ha : evalE (f + 1) (.binOp "and" l r) st = evalBinaryOp "and" lv rv st2 := by
    show (match evalE f l st with
          | (.val lv2, st12) =>
            match evalE f r st12 with
            | (.val rv2, st22) => evalBinaryOp "and" lv2 rv2 st22
            | o => o
          | o => o) = evalBinaryOp "and" lv rv st2
    rw [hl]
    dsimp only
    rw [hr]
  have ho : evalE (f + 1) (.binOp "or" l r) st = evalBinaryOp "or" lv rv st2 := by
    show (match evalE f l st with
          | (.val lv2, st12) =>
            match evalE f r st12 with
            | (.val rv2, st22) => evalBinaryOp "or" lv2 rv2 st22
            | o => o
          | o => o) = evalBinaryOp "or" lv rv st2
    rw [hl]
    dsimp only
    rw [hr]
  refine ⟨?_, ?_⟩
  · rw [ha]; simp [evalBinaryOp]
  · rw [ho]; simp [evalBinaryOp]

/-- C5 witness: `0 and (x = 5)` yields 0 but the assignment in the right
operand is executed; `0 or (x = 5)` yields 1. -/
theorem claimC5_witness :
    evalE 6 (.binOp "and" (.numLit 0) (.assign "x" "=" (.numLit 5))) initSt =
      (.val (.num 0),
        ⟨[("len", Value.nil), ("x", Value.num 5)], [], ""⟩) ∧
    evalE 6 (.binOp "or" (.numLit 0) (.assign "x" "=" (.numLit 5))) initSt =
      (.val (.num 1),
        ⟨[("len", Value.nil), ("x", Value.num 5)], [], ""⟩) :=
  claimC5_eager_and_or 5 (.numLit 0) (.assign "x" "=" (.numLit 5))
    initSt initSt ⟨[("len", Value.nil), ("x", Value.num 5)], [], ""⟩
    (.num 0) (.num 5) rfl rfl

set_option maxHeartbeats 1000000 in
/-- C6: non-slice index access on a string or list target with a numeric
index: the evaluation reduces to `indexCore`; a non-integral index
errors; a negative integral index is normalised exactly once by adding
the length; after normalisation an index outside `[0, L)` errors; in
range, a string target yields the single-byte string at that position
and a list target yields the element value. -/
theorem claimC6_index_access (f : Nat) (t i : Expr) (st st1 st2 : St)
    (tv : Value) (q : ℚ)
    (ht : evalE f t st = (.val tv, st1))
    (hi : evalE f i st1 = (.val (.num q), st2)) :
    evalE (f + 1) (.index1 t i) st = indexCore tv (.num q) st2 ∧
    (∀ s : String, tv = .str s →
      indexCore tv (.num q) st2 =
        if (q : ℚ) ≠ ((truncQ q : ℤ) : ℚ) then
          ((.err "Index must be an integer." : Res), st2)
        else
          if (if truncQ q < 0 then truncQ q + (s.length : ℤ) else truncQ q) < 0
              ∨ (s.length : ℤ) ≤
                (if truncQ q < 0 then truncQ q + (s.length : ℤ) else truncQ q)
          then ((.err "String index out of bounds" : Res), st2)
          else
            ((.val (.str (String.mk [s.toList.getD
              (if truncQ q < 0 then truncQ q + (s.length : ℤ)
               else truncQ q).toNat nulChar])) : Res), st2)) ∧
    (∀ a : Nat, tv = .list a →
      indexCore tv (.num q) st2 =
        if (q : ℚ) ≠ ((truncQ q : ℤ) : ℚ) then
          ((.err "Index must be an integer." : Res), st2)
        else
          if (if truncQ q < 0 then truncQ q + ((listOf st2 a).length : ℤ)
              else truncQ q) < 0
              ∨ ((listOf st2 a).length : ℤ) ≤
                (if truncQ q < 0 then truncQ q + ((listOf st2 a).length : ℤ)
                 else truncQ q)
          then ((.err "List index out of bounds" : Res), st2)
          else
            ((.val ((listOf st2 a).getD
              (if truncQ q < 0 then truncQ q + ((listOf st2 a).length : ℤ)
               else truncQ q).toNat Value.nil) : Res), st2)) := by
  refine ⟨?_, ?_, ?_⟩
  · show (match evalE f t st with
          | (.val tv2, st12) =>
            match evalE f i st12 with
            | (.val iv2, st22) => indexCore tv2 iv2 st22
            | o => o
          | o => o) = indexCore tv (.num q) st2
    rw [ht]
    dsimp only
    rw [hi]
  · intro s hs
    subst hs
    simp only [indexCore, Value.isNumber, Value.getNum, Value.isString,
      Value.getStr]
    simp
  · intro a ha
    subst ha
    simp only [indexCore, Value.isNumber, Value.getNum, Value.isString,
      Value.isList, Value.getAddr, Value.getStr]
    simp

/-- C6 witness: `"abc"[-1]` normalises −1 to 2 and yields the
single-byte string `"c"`. -/
theorem claimC6_witness :
    evalE 6 (.index1 (.strLit "abc") (.numLit (-1))) initSt =
        indexCore (.str "abc") (.num (-1)) initSt ∧
    indexCore (.str "abc") (.num (-1)) initSt =
        (.val (.str "c"), initSt) := by
  refine ⟨(claimC6_index_access 5 (.strLit "abc") (.numLit (-1)) initSt initSt
    initSt (.str "abc") (-1) rfl rfl).1, ?_⟩
  have h := (claimC6_index_access 5 (.strLit "abc") (.numLit (-1)) initSt
    initSt initSt (.str "abc") (-1) rfl rfl).2.1 "abc" rfl
  rw [h]
  rfl

/-- Truncation of an exact integer is the identity. -/
lemma truncQ_intCast (z : ℤ) : truncQ ((z : ℚ)) = z := by
  simp only [truncQ, Rat.intCast_num, Rat.intCast_den]
  split_ifs with h
  · simp only [Nat.div_one]
    omega
  · simp only [Nat.div_one]
    omega

/-- Every index produced by the positive-step loop is nonnegative (when
the start is) and below the end bound. -/
lemma upIdx_mem_bounds :
    ∀ (fuel : Nat) (i e s j : ℤ), 0 < s → 0 ≤ i → j ∈ upIdx fuel i e s →
      0 ≤ j ∧ j < e := by
  intro fuel
  induction fuel with
  | zero => intro i e s j _ _ hj; simp [upIdx] at hj
  | succ f ih =>
    intro i e s j hs hi hj
    rw [upIdx] at hj
    by_cases hie : i < e
    · rw [if_pos hie] at hj
      rcases List.mem_cons.mp hj with h | h
      · subst h; exact ⟨hi, hie⟩
      · exact ih (i + s) e s j hs (by omega) h
    · rw [if_neg hie] at hj
      simp at hj

/-- When every visited element is a string, the slice concatenation
succeeds with the fold of the element strings. -/
lemma sliceStrConcat_some (l : List Value) :
    ∀ idxs : List ℤ, (∀ j ∈ idxs, (l.getD j.toNat Value.nil).isString = true) →
      sliceStrConcat l idxs =
        some ((idxs.map (fun j => (l.getD j.toNat Value.nil).getStr)).foldr
          (· ++ ·) "") := by
  intro idxs
  induction idxs with
  | nil => intro _; rfl
  | cons j rest ih =>
    intro h
    have hj := h j (List.mem_cons_self j rest)
    have hrest := ih (fun k hk => h k (List.mem_cons_of_mem j hk))
    simp only [sliceStrConcat, hj, if_pos, hrest, List.map_cons,
      List.foldr_cons]
    rfl

/-- An in-bounds `getD` element belongs to the list. -/
lemma getD_mem_of_lt (l : List Value) (n : Nat) (h : n < l.length) :
    l.getD n Value.nil ∈ l := by
  rw [List.getD_eq_getElem?_getD, List.getElem?_eq_getElem h]
  exact List.getElem_mem h

/-- `sliceCore` on a list value whose elements are all strings and a
step: the result is the String concatenation of the elements at
the traversed positions (defaults already substituted, negatives offset
by the length, bounds clamped to [0, len]; positive step visits
start, start+step, … while < end; negative step visits start,
start+step, … while > end, keeping only in-range positions). -/
lemma sliceCore_strings (a : Nat) (st : St) (s0 e0 p0 : ℤ)
    (hstr : ∀ v ∈ listOf st a, v.isString = true) :
    sliceCore (.list a) s0 e0 p0 st =
      (.val (.str (((
        (if 0 < p0 then
          upIdx (((min ((listOf st a).length : ℤ) (max 0 (if e0 < 0 then e0 + ((listOf st a).length : ℤ) else e0))) -
              (min ((listOf st a).length : ℤ) (max 0 (if s0 < 0 then s0 + ((listOf st a).length : ℤ) else s0)))).toNat + 1)
            (min ((listOf st a).length : ℤ) (max 0 (if s0 < 0 then s0 + ((listOf st a).length : ℤ) else s0)))
            (min ((listOf st a).length : ℤ) (max 0 (if e0 < 0 then e0 + ((listOf st a).length : ℤ) else e0)))
            p0
        else
          (downIdx (((min ((listOf st a).length : ℤ) (max 0 (if s0 < 0 then s0 + ((listOf st a).length : ℤ) else s0))) -
              (min ((listOf st a).length : ℤ) (max 0 (if e0 < 0 then e0 + ((listOf st a).length : ℤ) else e0)))).toNat + 1)
            (min ((listOf st a).length : ℤ) (max 0 (if s0 < 0 then s0 + ((listOf st a).length : ℤ) else s0)))
            (min ((listOf st a).length : ℤ) (max 0 (if e0 < 0 then e0 + ((listOf st a).length : ℤ) else e0)))
            p0).filter
            (fun i => decide (i < ((listOf st a).length : ℤ) ∧ 0 ≤ i)))).map
          (fun j => ((listOf st a).getD j.toNat Value.nil).getStr)).foldr
          (· ++ ·) "")), st) := by
  simp only [sliceCore, Value.isList, Value.getAddr, Bool.not_true,
    Bool.false_eq_true, if_false, not_true_eq_false]
  have hconcat :
      (∀ j ∈ (if 0 < p0 then
          upIdx (((min ((listOf st a).length : ℤ) (max 0 (if e0 < 0 then e0 + ((listOf st a).length : ℤ) else e0))) -
              (min ((listOf st a).length : ℤ) (max 0 (if s0 < 0 then s0 + ((listOf st a).length : ℤ) else s0)))).toNat + 1)
            (min ((listOf st a).length : ℤ) (max 0 (if s0 < 0 then s0 + ((listOf st a).length : ℤ) else s0)))
            (min ((listOf st a).length : ℤ) (max 0 (if e0 < 0 then e0 + ((listOf st a).length : ℤ) else e0)))
            p0
        else
          (downIdx (((min ((listOf st a).length : ℤ) (max 0 (if s0 < 0 then s0 + ((listOf st a).length : ℤ) else s0))) -
              (min ((listOf st a).length : ℤ) (max 0 (if e0 < 0 then e0 + ((listOf st a).length : ℤ) else e0)))).toNat + 1)
            (min ((listOf st a).length : ℤ) (max 0 (if s0 < 0 then s0 + ((listOf st a).length : ℤ) else s0)))
            (min ((listOf st a).length : ℤ) (max 0 (if e0 < 0 then e0 + ((listOf st a).length : ℤ) else e0)))
            p0).filter
            (fun i => decide (i < ((listOf st a).length : ℤ) ∧ 0 ≤ i))),
        ((listOf st a).getD j.toNat Value.nil).isString = true) := by
    intro j hj
    by_cases hpp : 0 < p0
    · rw [if_pos hpp] at hj
      have hb := upIdx_mem_bounds _ _ _ _ _ hpp (by positivity) hj
      have hlen : j.toNat < (listOf st a).length := by
        have h2 := hb.2
        have h1 := hb.1
        have : j < ((listOf st a).length : ℤ) := by
          have := min_le_left ((listOf st a).length : ℤ)
            (max 0 (if e0 < 0 then e0 + ((listOf st a).length : ℤ) else e0))
          omega
        omega
      exact hstr _ (getD_mem_of_lt _ _ hlen)
    · rw [if_neg hpp] at hj
      have hj2 := List.mem_filter.mp hj
      have hb := of_decide_eq_true hj2.2
      have hlen : j.toNat < (listOf st a).length := by omega
      exact hstr _ (getD_mem_of_lt _ _ hlen)
  rw [sliceStrConcat_some _ _ hconcat]

/-- C3 counterexample: slicing a list of strings yields a String (not a
fresh list), and slicing a string raises the runtime error of `asList`
(slicing is not applicable to strings). -/
theorem claimC3_counterexample :
    evalE 5
        (.sliceE (.ident "l") (some (.numLit 0)) (some (.numLit 2))
          (some (.numLit 1)))
        ⟨[("len", Value.nil), ("l", Value.list 0)],
         [[Value.str "x", Value.str "y", Value.str "z"]], ""⟩ =
      (.val (.str "xy"),
        ⟨[("len", Value.nil), ("l", Value.list 0)],
         [[Value.str "x", Value.str "y", Value.str "z"]], ""⟩) ∧
    (Value.str "xy").isList = false ∧
    evalE 5
        (.sliceE (.strLit "abc") (some (.numLit 0)) (some (.numLit 2))
          (some (.numLit 1))) initSt =
      (.err "Value is not a List, cannot call asList()", initSt) :=
  ⟨rfl, rfl, rfl⟩

set_option maxHeartbeats 1000000 in
/-- C3 (amended): a slice with integral components and non-zero step
evaluates the target and reduces to `sliceCore` with start and end
DEFAULTED TO 0 (not 0/length) and then offset by the length when
negative and clamped to [0, len]; on a list of strings the result is the
String concatenation of the visited elements (never a list; string
targets and non-string elements error, see the counterexample and
`sliceCore`). -/
theorem claimC3_amended (f : Nat) (te : Expr) (st st1 : St) (a : Nat)
    (sb eb pb : Option ℤ)
    (ht : evalE (f + 1) te st = (.val (.list a), st1))
    (hpz : ∀ z ∈ pb, z ≠ 0)
    (hstr : ∀ v ∈ listOf st1 a, v.isString = true) :
    evalE (f + 2)
        (.sliceE te (sb.map (fun z => Expr.numLit ((z : ℤ) : ℚ)))
          (eb.map (fun z => Expr.numLit ((z : ℤ) : ℚ)))
          (pb.map (fun z => Expr.numLit ((z : ℤ) : ℚ)))) st =
      sliceCore (.list a) (sb.getD 0) (eb.getD 0) (pb.getD 1) st1 ∧
    sliceCore (.list a) (sb.getD 0) (eb.getD 0) (pb.getD 1) st1 =
      (.val (.str (((
        (if 0 < pb.getD 1 then
          upIdx (((min ((listOf st1 a).length : ℤ) (max 0 (if eb.getD 0 < 0 then eb.getD 0 + ((listOf st1 a).length : ℤ) else eb.getD 0))) -
              (min ((listOf st1 a).length : ℤ) (max 0 (if sb.getD 0 < 0 then sb.getD 0 + ((listOf st1 a).length : ℤ) else sb.getD 0)))).toNat + 1)
            (min ((listOf st1 a).length : ℤ) (max 0 (if sb.getD 0 < 0 then sb.getD 0 + ((listOf st1 a).length : ℤ) else sb.getD 0)))
            (min ((listOf st1 a).length : ℤ) (max 0 (if eb.getD 0 < 0 then eb.getD 0 + ((listOf st1 a).length : ℤ) else eb.getD 0)))
            (pb.getD 1)
        else
          (downIdx (((min ((listOf st1 a).length : ℤ) (max 0 (if sb.getD 0 < 0 then sb.getD 0 + ((listOf st1 a).length : ℤ) else sb.getD 0))) -
              (min ((listOf st1 a).length : ℤ) (max 0 (if eb.getD 0 < 0 then eb.getD 0 + ((listOf st1 a).length : ℤ) else eb.getD 0)))).toNat + 1)
            (min ((listOf st1 a).length : ℤ) (max 0 (if sb.getD 0 < 0 then sb.getD 0 + ((listOf st1 a).length : ℤ) else sb.getD 0)))
            (min ((listOf st1 a).length : ℤ) (max 0 (if eb.getD 0 < 0 then eb.getD 0 + ((listOf st1 a).length : ℤ) else eb.getD 0)))
            (pb.getD 1)).filter
            (fun i => decide (i < ((listOf st1 a).length : ℤ) ∧ 0 ≤ i)))).map
          (fun j => ((listOf st1 a).getD j.toNat Value.nil).getStr)).foldr
          (· ++ ·) "")), st1) := by
  constructor
  ·
    cases sb with
    | none =>
      cases eb with
      | none =>
        cases pb with
        | none =>
            show (match evalE (f + 1) te st with
              | (.val tv, st1x) =>
                sliceCore tv (truncQ (0 : ℚ)) (truncQ (0 : ℚ)) (truncQ (1 : ℚ)) st1x
              | o => o) = _
            rw [ht]
            dsimp only
            have h0 : truncQ (0 : ℚ) = 0 := by decide
            have h1 : truncQ (1 : ℚ) = 1 := by decide
            rw [h0, h1]
            rfl
        | some zp =>
            show (match evalE (f + 1) te st with
              | (.val tv, st1x) =>
                (match (if truncQ ((zp : ℤ) : ℚ) = 0 then
                          ((.err "Slice step cannot be zero." : Res), st1x)
                        else ((.val (.num ((zp : ℤ) : ℚ)) : Res), st1x)) with
                 | (.val pv, st4) =>
                   sliceCore tv (truncQ (0 : ℚ)) (truncQ (0 : ℚ)) (truncQ pv.getNum) st4
                 | o => o)
              | o => o) = _
            rw [ht]
            dsimp only
            have hz : ¬ truncQ ((zp : ℤ) : ℚ) = 0 := by
              rw [truncQ_intCast]; exact hpz zp (by simp)
            rw [if_neg hz]
            dsimp only [Value.getNum]
            have h0 : truncQ (0 : ℚ) = 0 := by decide
            rw [truncQ_intCast zp, h0]
            rfl
      | some ze =>
        cases pb with
        | none =>
            show (match evalE (f + 1) te st with
              | (.val tv, st1x) =>
                sliceCore tv (truncQ (0 : ℚ)) (truncQ ((ze : ℤ) : ℚ)) (truncQ (1 : ℚ)) st1x
              | o => o) = _
            rw [ht]
            dsimp only
            have h0 : truncQ (0 : ℚ) = 0 := by decide
            have h1 : truncQ (1 : ℚ) = 1 := by decide
            rw [truncQ_intCast ze, h0, h1]
            rfl
        | some zp =>
            show (match evalE (f + 1) te st with
              | (.val tv, st1x) =>
                (match (if truncQ ((zp : ℤ) : ℚ) = 0 then
                          ((.err "Slice step cannot be zero." : Res), st1x)
                        else ((.val (.num ((zp : ℤ) : ℚ)) : Res), st1x)) with
                 | (.val pv, st4) =>
                   sliceCore tv (truncQ (0 : ℚ)) (truncQ ((ze : ℤ) : ℚ)) (truncQ pv.getNum) st4
                 | o => o)
              | o => o) = _
            rw [ht]
            dsimp only
            have hz : ¬ truncQ ((zp : ℤ) : ℚ) = 0 := by
              rw [truncQ_intCast]; exact hpz zp (by simp)
            rw [if_neg hz]
            dsimp only [Value.getNum]
            have h0 : truncQ (0 : ℚ) = 0 := by decide
            rw [truncQ_intCast ze, truncQ_intCast zp, h0]
            rfl
    | some zs =>
      cases eb with
      | none =>
        cases pb with
        | none =>
            show (match evalE (f + 1) te st with
              | (.val tv, st1x) =>
                sliceCore tv (truncQ ((zs : ℤ) : ℚ)) (truncQ (0 : ℚ)) (truncQ (1 : ℚ)) st1x
              | o => o) = _
            rw [ht]
            dsimp only
            have h0 : truncQ (0 : ℚ) = 0 := by decide
            have h1 : truncQ (1 : ℚ) = 1 := by decide
            rw [truncQ_intCast zs, h0, h1]
            rfl
        | some zp =>
            show (match evalE (f + 1) te st with
              | (.val tv, st1x) =>
                (match (if truncQ ((zp : ℤ) : ℚ) = 0 then
                          ((.err "Slice step cannot be zero." : Res), st1x)
                        else ((.val (.num ((zp : ℤ) : ℚ)) : Res), st1x)) with
                 | (.val pv, st4) =>
                   sliceCore tv (truncQ ((zs : ℤ) : ℚ)) (truncQ (0 : ℚ)) (truncQ pv.getNum) st4
                 | o => o)
              | o => o) = _
            rw [ht]
            dsimp only
            have hz : ¬ truncQ ((zp : ℤ) : ℚ) = 0 := by
              rw [truncQ_intCast]; exact hpz zp (by simp)
            rw [if_neg hz]
            dsimp only [Value.getNum]
            have h0 : truncQ (0 : ℚ) = 0 := by decide
            rw [truncQ_intCast zs, truncQ_intCast zp, h0]
            rfl
      | some ze =>
        cases pb with
        | none =>
            show (match evalE (f + 1) te st with
              | (.val tv, st1x) =>
                sliceCore tv (truncQ ((zs : ℤ) : ℚ)) (truncQ ((ze : ℤ) : ℚ)) (truncQ (1 : ℚ)) st1x
              | o => o) = _
            rw [ht]
            dsimp only
            have h1 : truncQ (1 : ℚ) = 1 := by decide
            rw [truncQ_intCast zs, truncQ_intCast ze, h1]
            rfl
        | some zp =>
            show (match evalE (f + 1) te st with
              | (.val tv, st1x) =>
                (match (if truncQ ((zp : ℤ) : ℚ) = 0 then
                          ((.err "Slice step cannot be zero." : Res), st1x)
                        else ((.val (.num ((zp : ℤ) : ℚ)) : Res), st1x)) with
                 | (.val pv, st4) =>
                   sliceCore tv (truncQ ((zs : ℤ) : ℚ)) (truncQ ((ze : ℤ) : ℚ)) (truncQ pv.getNum) st4
                 | o => o)
              | o => o) = _
            rw [ht]
            dsimp only
            have hz : ¬ truncQ ((zp : ℤ) : ℚ) = 0 := by
              rw [truncQ_intCast]; exact hpz zp (by simp)
            rw [if_neg hz]
            dsimp only [Value.getNum]
            rw [truncQ_intCast zs, truncQ_intCast ze, truncQ_intCast zp]
            rfl
  · exact sliceCore_strings a st1 (sb.getD 0) (eb.getD 0) (pb.getD 1) hstr

/-- C3 witness: the amended theorem at `l[0:2:1]` for
`l = ["x", "y", "z"]`: the result is the String `"xy"`. -/
theorem claimC3_witness :
    evalE 7
        (.sliceE (.ident "l") (some (.numLit ((0 : ℤ) : ℚ)))
          (some (.numLit ((2 : ℤ) : ℚ))) (some (.numLit ((1 : ℤ) : ℚ))))
        ⟨[("len", Value.nil), ("l", Value.list 0)],
         [[Value.str "x", Value.str "y", Value.str "z"]], ""⟩ =
      (.val (.str "xy"),
        ⟨[("len", Value.nil), ("l", Value.list 0)],
         [[Value.str "x", Value.str "y", Value.str "z"]], ""⟩) := by
  have h := claimC3_amended 5 (.ident "l")
    ⟨[("len", Value.nil), ("l", Value.list 0)],
     [[Value.str "x", Value.str "y", Value.str "z"]], ""⟩
    ⟨[("len", Value.nil), ("l", Value.list 0)],
     [[Value.str "x", Value.str "y", Value.str "z"]], ""⟩
    0 (some 0) (some 2) (some 1) rfl (by decide) (by decide)
  exact h.1.trans (h.2.trans (by rfl))


/-- Unfolding equation for `parsePrimaryBase` at successor fuel (the
equation is definitional; stating it once avoids re-unfolding in proofs). -/
lemma parsePrimaryBase_succ (f : Nat) (ts : List Tok) : parsePrimaryBase (f + 1) ts =
    if (peekT ts).type = TokType.identT then
      .ok (Expr.ident (peekT ts).value, advT ts)
    else if (peekT ts).type = TokType.numberT then
      .ok (Expr.numLit (lexemeToQ (peekT ts).value), advT ts)
    else if (peekT ts).type = TokType.stringT then
      .ok (Expr.strLit (peekT ts).value, advT ts)
    else if (peekT ts).type = TokType.lparenT then
      match parseExpression f (advT ts) with
      | .error e => .error e
      | .ok (e, ts1) =>
        match matchT ts1 TokType.rparenT with
        | some (_, ts2) => .ok (e, ts2)
        | none => .error "Expected ')' after expression in parentheses"
    else if (peekT ts).type = TokType.lbracketT then
      (if checkT (advT ts) TokType.rbracketT then
        .ok (Expr.listLit [], advT (advT ts))
      else
        match parseExprCommaList f (advT ts) with
        | .error e => .error e
        | .ok (elems, ts1) =>
          match matchT ts1 TokType.rbracketT with
          | some (_, ts2) => .ok (Expr.listLit elems, ts2)
          | none => .error "Expected ']' after list elements")
    else if (peekT ts).type = TokType.keywordT then
      (let kw := (peekT ts).value
      let ts0 := advT ts
      if kw = "true" then .ok (Expr.numLit 1, ts0)
      else if kw = "false" then .ok (Expr.numLit 0, ts0)
      else if kw = "nil" then .ok (Expr.nilLit, ts0)
      else if kw = "function" then
        match consumeT ts0 TokType.lparenT "Expected '(' after 'function'" with
        | .error e => .error e
        | .ok (_, ts1) =>
          match
            (if checkT ts1 TokType.rparenT then .ok (([] : List String), ts1)
             else parseParamList f ts1) with
          | .error e => .error e
          | .ok (params, ts2) =>
            match consumeT ts2 TokType.rparenT
                "Expect ')' after function parameters" with
            | .error e => .error e
            | .ok (_, ts3) =>
              match parseBlock f ts3 with
              | .error e => .error e
              | .ok (body, ts4) =>
                match consumeT ts4 TokType.keywordT
                    "Expected 'end' after function body" with
                | .error e => .error e
                | .ok (t1, ts5) =>
                  if t1.value ≠ "end" then
                    .error ("Expected keyword 'end' but got '" ++ t1.value ++
                      "' after function body")
                  else
                    match consumeT ts5 TokType.keywordT
                        "Expected 'function' after 'end' for function definition" with
                    | .error e => .error e
                    | .ok (t2, ts6) =>
                      if t2.value ≠ "function" then
                        .error ("Expected keyword 'function' after 'end' but got '"
                          ++ t2.value ++ "'")
                      else .ok (Expr.funcDef params body, ts6)
      else .error ("Unexpected keyword in primary expression: " ++ kw))
    else
      .error ("Unexpected token in primary expression: " ++ (peekT ts).value) := rfl

set_option maxHeartbeats 2000000 in
lemma parserNoCaret (fuel : Nat) :
    (∀ ts e ts2, parseExpression fuel ts = .ok (e, ts2) → noCaretE e = true) ∧
    (∀ ts e ts2, parseAssignment fuel ts = .ok (e, ts2) → noCaretE e = true) ∧
    (∀ ts e ts2, parseLogicalOr fuel ts = .ok (e, ts2) → noCaretE e = true) ∧
    (∀ acc ts e ts2, noCaretE acc = true → parseLogicalOrLoop fuel acc ts = .ok (e, ts2) → noCaretE e = true) ∧
    (∀ ts e ts2, parseLogicalAnd fuel ts = .ok (e, ts2) → noCaretE e = true) ∧
    (∀ acc ts e ts2, noCaretE acc = true → parseLogicalAndLoop fuel acc ts = .ok (e, ts2) → noCaretE e = true) ∧
    (∀ ts e ts2, parseEquality fuel ts = .ok (e, ts2) → noCaretE e = true) ∧
    (∀ acc ts e ts2, noCaretE acc = true → parseEqualityLoop fuel acc ts = .ok (e, ts2) → noCaretE e = true) ∧
    (∀ ts e ts2, parseComparison fuel ts = .ok (e, ts2) → noCaretE e = true) ∧
    (∀ acc ts e ts2, noCaretE acc = true → parseComparisonLoop fuel acc ts = .ok (e, ts2) → noCaretE e = true) ∧
    (∀ ts e ts2, parseTerm fuel ts = .ok (e, ts2) → noCaretE e = true) ∧
    (∀ acc ts e ts2, noCaretE acc = true → parseTermLoop fuel acc ts = .ok (e, ts2) → noCaretE e = true) ∧
    (∀ ts e ts2, parseFactor fuel ts = .ok (e, ts2) → noCaretE e = true) ∧
    (∀ acc ts e ts2, noCaretE acc = true → parseFactorLoop fuel acc ts = .ok (e, ts2) → noCaretE e = true) ∧
    (∀ ts e ts2, parseUnary fuel ts = .ok (e, ts2) → noCaretE e = true) ∧
    (∀ ts e ts2, parsePrimary fuel ts = .ok (e, ts2) → noCaretE e = true) ∧
    (∀ ts es ts2, parseExprCommaList fuel ts = .ok (es, ts2) → noCaretEs es = true) ∧
    (∀ acc ts e ts2, noCaretE acc = true → parsePostfixLoop fuel acc ts = .ok (e, ts2) → noCaretE e = true) ∧
    (∀ ts s ts2, parseStatement fuel ts = .ok (s, ts2) → noCaretS s = true) ∧
    (∀ ts s ts2, parseIfStatement fuel ts = .ok (s, ts2) → noCaretS s = true) ∧
    (∀ ts pr ts2, parseElseChain fuel ts = .ok (pr, ts2) → noCaretPairs pr.1 = true ∧ noCaretBO pr.2 = true) ∧
    (∀ ts s ts2, parseWhileStatement fuel ts = .ok (s, ts2) → noCaretS s = true) ∧
    (∀ ts s ts2, parseForStatement fuel ts = .ok (s, ts2) → noCaretS s = true) ∧
    (∀ ts b ts2, parseBlock fuel ts = .ok (b, ts2) → noCaretB b = true) ∧
    (∀ ts ss ts2, parseBlockStmts fuel ts = .ok (ss, ts2) → noCaretSs ss = true) ∧
    (∀ ts ss ts2, parseTopStmts fuel ts = .ok (ss, ts2) → noCaretSs ss = true) ∧
    (∀ ts x ts1, parsePrimaryBase fuel ts = .ok (x, ts1) → noCaretE x = true) := by
  induction fuel with
  | zero =>
    refine ⟨?_, ?_, ?_, ?_, ?_, ?_, ?_, ?_, ?_, ?_, ?_, ?_, ?_, ?_, ?_, ?_, ?_, ?_, ?_, ?_, ?_, ?_, ?_, ?_, ?_, ?_, ?_⟩ <;> intros <;>
      simp_all [parseExpression, parseAssignment, parseLogicalOr, parseLogicalOrLoop, parseLogicalAnd, parseLogicalAndLoop, parseEquality, parseEqualityLoop, parseComparison, parseComparisonLoop, parseTerm, parseTermLoop, parseFactor, parseFactorLoop, parseUnary, parsePrimary, parsePrimaryBase, parseExprCommaList, parsePostfixLoop, parseStatement, parseIfStatement, parseElseChain, parseWhileStatement, parseForStatement, parseBlock, parseBlockStmts, parseTopStmts]
  | succ f ih =>
    obtain ⟨ihpe, ihpa, ihplo, ihplol, ihpla, ihplal, ihpeq, ihpeql, ihpc, ihpcl, ihpt, ihptl, ihpf, ihpfl, ihpu, ihpp, ihpecl, ihppl, ihps, ihpif, ihpec, ihpw, ihpfor, ihpb, ihpbs, ihpts, ihppb⟩ := ih
    refine ⟨?_, ?_, ?_, ?_, ?_, ?_, ?_, ?_, ?_, ?_, ?_, ?_, ?_, ?_, ?_, ?_, ?_, ?_, ?_, ?_, ?_, ?_, ?_, ?_, ?_, ?_, ?_⟩
    · intro ts e ts2 h
      simp only [parseExpression] at h
      exact ihpa _ _ _ h
    · intro ts e ts2 h
      simp only [parseAssignment] at h
      repeat' split at h
      all_goals first
        | exact Except.noConfusion h
        | (injection h with h1
           have h2 := congrArg Prod.fst h1
           subst h2
           first
             | (simp only [noCaretE]; exact ihpa _ _ _ (by assumption))
             | exact ihplo _ _ _ (by assumption))
    · intro ts e ts2 h
      simp only [parseLogicalOr] at h
      split at h
      all_goals first
        | (simp at h; done)
        | exact ihplol _ _ _ _ (ihpla _ _ _ (by assumption)) h
    · intro acc ts e ts2 hacc h
      simp only [parseLogicalOrLoop] at h
      split at h
      next hg =>
        split at h
        all_goals first
          | (simp at h; done)
          | (refine ihplol _ _ _ _ ?_ h
             simp [noCaretE, hacc, ihpla _ _ _ (by assumption)])
      next hg =>
        injection h with h1
        have h2 : acc = e := congrArg Prod.fst h1
        subst h2
        exact hacc
    · intro ts e ts2 h
      simp only [parseLogicalAnd] at h
      split at h
      all_goals first
        | (simp at h; done)
        | exact ihplal _ _ _ _ (ihpeq _ _ _ (by assumption)) h
    · intro acc ts e ts2 hacc h
      simp only [parseLogicalAndLoop] at h
      split at h
      next hg =>
        split at h
        all_goals first
          | (simp at h; done)
          | (refine ihplal _ _ _ _ ?_ h
             simp [noCaretE, hacc, ihpeq _ _ _ (by assumption)])
      next hg =>
        injection h with h1
        have h2 : acc = e := congrArg Prod.fst h1
        subst h2
        exact hacc
    · intro ts e ts2 h
      simp only [parseEquality] at h
      split at h
      all_goals first
        | (simp at h; done)
        | exact ihpeql _ _ _ _ (ihpc _ _ _ (by assumption)) h
    · intro acc ts e ts2 hacc h
      simp only [parseEqualityLoop] at h
      split at h
      next hg =>
        split at h
        all_goals first
          | (simp at h; done)
          | (refine ihpeql _ _ _ _ ?_ h
             have hop : ¬ (peekT ts).value = "^" := by
               rcases hg.2 with h1 | h1 <;> (rw [h1]; decide)
             simp [noCaretE, hacc, hop, ihpc _ _ _ (by assumption)])
      next hg =>
        injection h with h1
        have h2 : acc = e := congrArg Prod.fst h1
        subst h2
        exact hacc
    · intro ts e ts2 h
      simp only [parseComparison] at h
      split at h
      all_goals first
        | (simp at h; done)
        | exact ihpcl _ _ _ _ (ihpt _ _ _ (by assumption)) h
    · intro acc ts e ts2 hacc h
      simp only [parseComparisonLoop] at h
      split at h
      next hg =>
        split at h
        all_goals first
          | (simp at h; done)
          | (refine ihpcl _ _ _ _ ?_ h
             have hop : ¬ (peekT ts).value = "^" := by
               rcases hg.2 with h1 | h1 | h1 | h1 <;> (rw [h1]; decide)
             simp [noCaretE, hacc, hop, ihpt _ _ _ (by assumption)])
      next hg =>
        injection h with h1
        have h2 : acc = e := congrArg Prod.fst h1
        subst h2
        exact hacc
    · intro ts e ts2 h
      simp only [parseTerm] at h
      split at h
      all_goals first
        | (simp at h; done)
        | exact ihptl _ _ _ _ (ihpf _ _ _ (by assumption)) h
    · intro acc ts e ts2 hacc h
      simp only [parseTermLoop] at h
      split at h
      next hg =>
        split at h
        all_goals first
          | (simp at h; done)
          | (refine ihptl _ _ _ _ ?_ h
             have hop : ¬ (peekT ts).value = "^" := by
               rcases hg.2 with h1 | h1 <;> (rw [h1]; decide)
             simp [noCaretE, hacc, hop, ihpf _ _ _ (by assumption)])
      next hg =>
        injection h with h1
        have h2 : acc = e := congrArg Prod.fst h1
        subst h2
        exact hacc
    · intro ts e ts2 h
      simp only [parseFactor] at h
      split at h
      all_goals first
        | (simp at h; done)
        | exact ihpfl _ _ _ _ (ihpu _ _ _ (by assumption)) h
    · intro acc ts e ts2 hacc h
      simp only [parseFactorLoop] at h
      split at h
      next hg =>
        split at h
        all_goals first
          | (simp at h; done)
          | (refine ihpfl _ _ _ _ ?_ h
             have hop : ¬ (peekT ts).value = "^" := by
               rcases hg.2 with h1 | h1 | h1 <;> (rw [h1]; decide)
             simp [noCaretE, hacc, hop, ihpu _ _ _ (by assumption)])
      next hg =>
        injection h with h1
        have h2 : acc = e := congrArg Prod.fst h1
        subst h2
        exact hacc
    · intro ts e ts2 h
      simp only [parseUnary] at h
      repeat' split at h
      all_goals first
        | exact Except.noConfusion h
        | exact ihpp _ _ _ h
        | (injection h with h1
           have h2 := congrArg Prod.fst h1
           subst h2
           simp only [noCaretE]
           exact ihpu _ _ _ (by assumption))
    · intro ts e ts2 h
      simp only [parsePrimary] at h
      split at h
      · exact Except.noConfusion h
      · split at h
        · exact Except.noConfusion h
        · exact ihppl _ _ _ _ (ihppb _ _ _ (by assumption)) h
    · intro ts es ts2 h
      simp only [parseExprCommaList] at h
      repeat' split at h
      all_goals first
        | exact Except.noConfusion h
        | (injection h with h1
           have h2 := congrArg Prod.fst h1
           subst h2
           simp only [noCaretEs, Bool.and_eq_true]
           first
             | exact ⟨ihpe _ _ _ (by assumption), ihpecl _ _ _ (by assumption)⟩
             | exact ⟨ihpe _ _ _ (by assumption), trivial⟩)
    · intro acc ts e ts2 hacc h
      simp only [parsePostfixLoop] at h
      split at h
      · split at h
        · exact Except.noConfusion h
        · rename_i args ts1 hargs
          have hargsN : noCaretEs args = true := by
            split at hargs
            · injection hargs with h1
              have h2 := congrArg Prod.fst h1
              subst h2
              rfl
            · exact ihpecl _ _ _ hargs
          split at h
          · refine ihppl _ _ _ _ ?_ h
            simp only [noCaretE, Bool.and_eq_true]
            exact ⟨hacc, hargsN⟩
          · exact Except.noConfusion h
      · split at h
        · split at h
          · exact Except.noConfusion h
          · rename_i pStart b0 ts2x hstart
            have hstartN : noCaretEO pStart = true := by
              repeat' split at hstart
              all_goals first
                | exact Except.noConfusion hstart
                | (injection hstart with h1
                   have h2 := congrArg Prod.fst h1
                   subst h2
                   first
                     | rfl
                     | (simp only [noCaretEO]; exact ihpe _ _ _ (by assumption)))
            split at h
            · split at h
              · exact Except.noConfusion h
              · rename_i pEnd ts4 hend
                have hendN : noCaretEO pEnd = true := by
                  repeat' split at hend
                  all_goals first
                    | exact Except.noConfusion hend
                    | (injection hend with h1
                       have h2 := congrArg Prod.fst h1
                       subst h2
                       first
                         | rfl
                         | (simp only [noCaretEO]; exact ihpe _ _ _ (by assumption)))
                split at h
                · exact Except.noConfusion h
                · rename_i pStep ts6 hstep
                  have hstepN : noCaretEO pStep = true := by
                    repeat' split at hstep
                    all_goals first
                      | exact Except.noConfusion hstep
                      | (injection hstep with h1
                         have h2 := congrArg Prod.fst h1
                         subst h2
                         first
                           | rfl
                           | (simp only [noCaretEO]; exact ihpe _ _ _ (by assumption)))
                  split at h
                  · exact Except.noConfusion h
                  · refine ihppl _ _ _ _ ?_ h
                    simp only [noCaretE, Bool.and_eq_true]
                    exact ⟨⟨⟨hacc, hstartN⟩, hendN⟩, hstepN⟩
            · split at h
              · exact Except.noConfusion h
              · split at h
                · refine ihppl _ _ _ _ ?_ h
                  simp only [noCaretE, Bool.and_eq_true]
                  exact ⟨⟨⟨hacc, hstartN⟩, rfl⟩, rfl⟩
                · split at h
                  · refine ihppl _ _ _ _ ?_ h
                    simp only [noCaretE, Bool.and_eq_true]
                    refine ⟨hacc, ?_⟩
                    simpa [noCaretEO] using hstartN
                  · exact Except.noConfusion h
        · injection h with h1
          have h2 := congrArg Prod.fst h1
          subst h2
          exact hacc
    · intro ts s ts2 h
      simp only [parseStatement] at h
      repeat' split at h
      all_goals first
        | exact Except.noConfusion h
        | exact ihpif _ _ _ h
        | exact ihpw _ _ _ h
        | exact ihpfor _ _ _ h
        | (injection h with h1
           have h2 := congrArg Prod.fst h1
           subst h2
           first
             | rfl
             | (simp only [noCaretS, noCaretEO]; exact ihpe _ _ _ (by assumption)))
    · intro ts s ts2 h
      simp only [parseIfStatement] at h
      repeat' split at h
      all_goals first
        | exact Except.noConfusion h
        | (injection h with h1
           have h2 := congrArg Prod.fst h1
           subst h2
           simp only [noCaretS, Bool.and_eq_true]
           exact ⟨⟨⟨ihpe _ _ _ (by assumption), ihpb _ _ _ (by assumption)⟩,
             (ihpec _ _ _ (by assumption)).1⟩, (ihpec _ _ _ (by assumption)).2⟩)
    · intro ts pr ts2 h
      simp only [parseElseChain] at h
      repeat' split at h
      all_goals first
        | exact Except.noConfusion h
        | (injection h with h1
           have h2 := congrArg Prod.fst h1
           subst h2
           try dsimp only
           first
             | exact ⟨rfl, rfl⟩
             | exact ⟨rfl, by simp only [noCaretBO]; exact ihpb _ _ _ (by assumption)⟩
             | (refine ⟨?_, (ihpec _ _ _ (by assumption)).2⟩
                simp only [noCaretPairs, Bool.and_eq_true]
                exact ⟨⟨ihpe _ _ _ (by assumption), ihpb _ _ _ (by assumption)⟩,
                  (ihpec _ _ _ (by assumption)).1⟩))
    · intro ts s ts2 h
      simp only [parseWhileStatement] at h
      repeat' split at h
      all_goals first
        | exact Except.noConfusion h
        | (injection h with h1
           have h2 := congrArg Prod.fst h1
           subst h2
           simp only [noCaretS, Bool.and_eq_true]
           exact ⟨ihpe _ _ _ (by assumption), ihpb _ _ _ (by assumption)⟩)
    · intro ts s ts2 h
      simp only [parseForStatement] at h
      repeat' split at h
      all_goals first
        | exact Except.noConfusion h
        | (injection h with h1
           have h2 := congrArg Prod.fst h1
           subst h2
           simp only [noCaretS, Bool.and_eq_true]
           exact ⟨ihpe _ _ _ (by assumption), ihpb _ _ _ (by assumption)⟩)
    · intro ts b ts2 h
      simp only [parseBlock] at h
      repeat' split at h
      all_goals first
        | exact Except.noConfusion h
        | (injection h with h1
           have h2 := congrArg Prod.fst h1
           subst h2
           simp only [noCaretB]
           exact ihpbs _ _ _ (by assumption))
    · intro ts ss ts2 h
      simp only [parseBlockStmts] at h
      repeat' split at h
      all_goals first
        | exact Except.noConfusion h
        | (injection h with h1
           have h2 := congrArg Prod.fst h1
           subst h2
           first
             | rfl
             | (simp only [noCaretSs, Bool.and_eq_true]
                exact ⟨ihps _ _ _ (by assumption), ihpbs _ _ _ (by assumption)⟩))
    · intro ts ss ts2 h
      simp only [parseTopStmts] at h
      repeat' split at h
      all_goals first
        | exact Except.noConfusion h
        | (injection h with h1
           have h2 := congrArg Prod.fst h1
           subst h2
           first
             | rfl
             | (simp only [noCaretSs, Bool.and_eq_true]
                exact ⟨ihps _ _ _ (by assumption), ihpts _ _ _ (by assumption)⟩))
    · intro ts x ts1 hB
      rw [parsePrimaryBase_succ] at hB
      by_cases c1 : (peekT ts).type = TokType.identT
      · rw [if_pos c1] at hB
        injection hB with h1
        have h2 := congrArg Prod.fst h1
        subst h2
        rfl
      · rw [if_neg c1] at hB
        by_cases c2 : (peekT ts).type = TokType.numberT
        · rw [if_pos c2] at hB
          injection hB with h1
          have h2 := congrArg Prod.fst h1
          subst h2
          rfl
        · rw [if_neg c2] at hB
          by_cases c3 : (peekT ts).type = TokType.stringT
          · rw [if_pos c3] at hB
            injection hB with h1
            have h2 := congrArg Prod.fst h1
            subst h2
            rfl
          · rw [if_neg c3] at hB
            by_cases c4 : (peekT ts).type = TokType.lparenT
            · rw [if_pos c4] at hB
              repeat' split at hB
              all_goals first
                | exact Except.noConfusion hB
                | (injection hB with h1
                   have h2 := congrArg Prod.fst h1
                   subst h2
                   exact ihpe _ _ _ (by assumption))
            · rw [if_neg c4] at hB
              by_cases c5 : (peekT ts).type = TokType.lbracketT
              · rw [if_pos c5] at hB
                repeat' split at hB
                all_goals first
                  | exact Except.noConfusion hB
                  | (injection hB with h1
                     have h2 := congrArg Prod.fst h1
                     subst h2
                     first
                       | rfl
                       | (simp only [noCaretE]; exact ihpecl _ _ _ (by assumption))
                       | (simp only [noCaretE, noCaretEs]; done))
              · rw [if_neg c5] at hB
                by_cases c6 : (peekT ts).type = TokType.keywordT
                · rw [if_pos c6] at hB
                  dsimp only at hB
                  repeat' split at hB
                  all_goals first
                    | exact Except.noConfusion hB
                    | (injection hB with h1
                       have h2 := congrArg Prod.fst h1
                       subst h2
                       first
                         | rfl
                         | (simp only [noCaretE]; exact ihpb _ _ _ (by assumption)))
                · rw [if_neg c6] at hB
                  exact Except.noConfusion hB

/-- C9: Since the only route to `^` is the compound read in `readSymbol`
(`^=`), and the parser's binary-operator levels never match a bare `^`,
no `BinaryOpNode` with operator `^` is ever constructed: every expression
in a successfully parsed program satisfies the no-caret invariant. -/
theorem claimC9 (fuel : Nat) (ts : List Tok) (blk : Blk)
    (h : parseTop fuel ts = .ok blk) : noCaretB blk = true := by
  obtain ⟨-, -, -, -, -, -, -, -, -, -, -, -, -, -, -, -, -, -, -, -, -, -, -,
    -, -, hts, -⟩ := parserNoCaret fuel
  simp only [parseTop] at h
  split at h
  · exact Except.noConfusion h
  · injection h with h1
    subst h1
    simp only [noCaretB]
    exact hts _ _ _ (by assumption)

theorem claimC9_witness :
    noCaretB (Blk.mk [.exprStmt (.assign "x" "^=" (.numLit (lexemeToQ "2")))]) =
      true :=
  claimC9 40
    [⟨TokType.identT, "x"⟩, ⟨TokType.operatorT, "^="⟩,
     ⟨TokType.numberT, "2"⟩, eofTok] _ rfl


